import Mathlib

/-!
Verification of the synchronization reconciliation engine of the
eTiKeT sync agent (Python sources under `etiket_sync_agent/`).

Each Python function relevant to the checked claims is shallowly embedded
as an executable Lean definition; file-system and network interactions are
passed in as explicit environments.  Checksums are modelled as their
hex / base64 digest strings, timestamps and version ids as integers,
float priorities as integers (only their linear order matters to the
claims), and uuids as naturals.
-/

namespace SyncAgent

/-! ## File classification (`sync/sync_utilities.py`)

`FileCompatibility`, `has_MD5_match` and
`check_file_status_and_replacement_needed` are embedded from
`sync/sync_utilities.py` lines 33-36 and 336-407. -/

/-- `FileCompatibility` enum from `sync_utilities.py`. -/
inductive FileCompatibility where
  | MATCH
  | MISMATCH
  | EMPTY
deriving DecidableEq, Repr

/-- Remote file status; per the spec the remote side distinguishes
`pending` and `secured`, and the source compares only against `secured`. -/
inductive FileStatusRem where
  | pending
  | secured
deriving DecidableEq, Repr

/-- The part of a local file record (`FileReadLocal`) the classification
reads: the optional materialized path. -/
structure FileReadLocal where
  local_path : Option String
deriving DecidableEq, Repr

/-- The part of a remote file record (`FileReadRem`) the classification
reads: status, stored checksum (hex digest) and immutability flag. -/
structure FileReadRem where
  status : FileStatusRem
  md5_checksum : Option String
  immutable : Bool
deriving DecidableEq, Repr

/-- A file record is either a local or a remote one (the Python function
branches on `isinstance`). -/
inductive FileRecord where
  | loc : FileReadLocal → FileRecord
  | rem : FileReadRem → FileRecord
deriving DecidableEq, Repr

/-- Environment for checksum computations over the local file system:
`md5At p` is the hex digest of the raw MD5 of the file at path `p`;
`md5NetcdfAt p` is the content-aware (netcdf4) digest, `none` when the
computation raises. -/
structure FSEnv where
  md5At : String → String
  md5NetcdfAt : String → Option String

/-- Embeds `has_MD5_match` (`sync_utilities.py` lines 381-407).
`md5c` / `net4` are the hex digests of the candidate checksums
(`md5_checksum` and the optional `md5_checksum_netcdf4`). -/
def has_MD5_match (env : FSEnv) (file : FileRecord) (md5c : String)
    (net4 : Option String) : Bool :=
  match file with
  | .loc f =>
    match f.local_path with
    | some p =>
      if env.md5At p == md5c then true
      else
        match net4 with
        | some c =>
          match env.md5NetcdfAt p with
          | some l => l == c
          | none => false
        | none => false
    | none => false
  | .rem f =>
    match f.md5_checksum with
    | some stored =>
      if stored == md5c then true
      else
        match net4 with
        | some c => stored == c
        | none => false
    | none => false

/-- Embeds `check_file_status_and_replacement_needed`
(`sync_utilities.py` lines 336-379); returns
`(compatibility, needs_replacement)`.  The mutable-local replace path is
commented out in the source, so local mismatches never request
replacement. -/
def check_file_status_and_replacement_needed (env : FSEnv)
    (file : Option FileRecord) (md5c : String) (net4 : Option String) :
    FileCompatibility × Bool :=
  match file with
  | none => (.EMPTY, false)
  | some (.loc f) =>
    match f.local_path with
    | some _ =>
      if has_MD5_match env (.loc f) md5c net4 then (.MATCH, false)
      else (.MISMATCH, false)
    | none => (.MATCH, false)
  | some (.rem f) =>
    if f.status ≠ FileStatusRem.secured then (.MATCH, false)
    else
      match f.md5_checksum with
      | some _ =>
        if has_MD5_match env (.rem f) md5c net4 then (.MATCH, false)
        else if !f.immutable then (.MATCH, true)
        else (.MISMATCH, false)
      | none => (.MISMATCH, false)

/-- The classification table as worded by the spec (section 4.3): EMPTY
for a missing record; for a local record MATCH when nothing is
materialized or either checksum algorithm agrees, otherwise MISMATCH with
no replace path; for a remote record MATCH when not secured, MATCH on a
stored-checksum match, MATCH plus replacement on a mutable mismatch,
MISMATCH on an immutable mismatch, MISMATCH when secured without a stored
checksum. -/
def classify_spec (env : FSEnv) (file : Option FileRecord) (md5c : String)
    (net4 : Option String) : FileCompatibility × Bool :=
  match file with
  | none => (.EMPTY, false)
  | some (.loc f) =>
    match f.local_path with
    | none => (.MATCH, false)
    | some p =>
      if env.md5At p == md5c
          || (match net4, env.md5NetcdfAt p with
              | some c, some l => l == c
              | _, _ => false) then
        (.MATCH, false)
      else (.MISMATCH, false)
  | some (.rem f) =>
    match f.status with
    | .pending => (.MATCH, false)
    | .secured =>
      match f.md5_checksum with
      | none => (.MISMATCH, false)
      | some stored =>
        if stored == md5c
            || (match net4 with | some c => stored == c | none => false) then
          (.MATCH, false)
        else if !f.immutable then (.MATCH, true)
        else (.MISMATCH, false)

/-! ## Dataset metadata reconciliation (`sync/sync_utilities.py` lines 502-555)

Attribute maps (Python dicts) are modelled as association lists with
first-match lookup; dict equality is extensional equality of lookups and
`dict.update` keeps existing keys in place with overwritten values and
appends fresh keys. -/

/-- First-match lookup in an association list (Python `dict[k]` /
`dict.get(k)`; dict keys are unique, so first-match is exact). -/
def alookup : List (String × String) → String → Option String
  | [], _ => none
  | p :: rest, k => if p.1 == k then some p.2 else alookup rest k

/-- Python `base.copy()` followed by `base.update(incoming)`: existing keys
keep their slot with the incoming value when present, fresh incoming keys
are appended. -/
def dict_update (base incoming : List (String × String)) :
    List (String × String) :=
  base.map (fun p => (p.1, (alookup incoming p.1).getD p.2))
    ++ incoming.filter (fun p => alookup base p.1 == none)

/-- Python `set(a) == set(b)` on keyword lists. -/
def kw_set_eq (a b : List String) : Bool :=
  a.all (fun k => decide (k ∈ b)) && b.all (fun k => decide (k ∈ a))

/-- Python dict equality on attribute maps (same keys, same values). -/
def attr_eq (a b : List (String × String)) : Bool :=
  a.all (fun p => decide (alookup b p.1 = some p.2))
    && b.all (fun p => decide (alookup a p.1 = some p.2))

/-- The fields of `dataset_info` (`sync_utilities.py` lines 38-54) read by
the comparison; `created` is the collected time, `datasetUUID`/`scopeUUID`
are not compared and omitted. -/
structure dataset_info where
  alt_uid : Option String
  name : String
  description : Option String
  keywords : List String
  ranking : Int
  attributes : List (String × String)
  creator : String
  created : Int
deriving DecidableEq, Repr

/-- The fields of an existing dataset record (local or remote `DatasetRead`)
read by the comparison, plus `creator` and `collected` which the claims
mention. -/
structure DatasetReadM where
  alt_uid : Option String
  name : String
  description : Option String
  keywords : List String
  ranking : Int
  attributes : Option (List (String × String))
  creator : String
  collected : Int
deriving DecidableEq, Repr

/-- A `DatasetUpdate` payload: `none` means the field is absent from
`update_fields`. -/
structure DatasetUpdateM where
  alt_uid : Option (Option String) := none
  name : Option String := none
  description : Option (Option String) := none
  keywords : Option (List String) := none
  ranking : Option Int := none
  attributes : Option (List (String × String)) := none
deriving DecidableEq, Repr

/-- Python `ds_info.attributes != existing_dataset.attributes`: an
existing record without a map always differs, otherwise dict equality. -/
def attr_differs_bool (a : List (String × String))
    (o : Option (List (String × String))) : Bool :=
  match o with
  | none => true
  | some m => !(attr_eq a m)

/-- Embeds `compare_and_prepare_update` (`sync_utilities.py` lines
502-555): compares alt_uid, name, description, keyword set, ranking and
the attribute map (union-merged from the existing map, incoming keys
winning); `creator` and the collected time are not compared. -/
def compare_and_prepare_update (info : dataset_info)
    (existing : Option DatasetReadM) : Bool × DatasetUpdateM :=
  match existing with
  | none => (false, {})
  | some ex =>
    let alt_d := !(decide (info.alt_uid = ex.alt_uid))
    let name_d := !(decide (info.name = ex.name))
    let desc_d := !(decide (info.description = ex.description))
    let kw_d := !(kw_set_eq info.keywords ex.keywords)
    let rank_d := !(decide (info.ranking = ex.ranking))
    let attr_d := attr_differs_bool info.attributes ex.attributes
    let merged := dict_update (ex.attributes.getD []) info.attributes
    (alt_d || name_d || desc_d || kw_d || rank_d || attr_d,
      { alt_uid := if alt_d then some info.alt_uid else none
        name := if name_d then some info.name else none
        description := if desc_d then some info.description else none
        keywords := if kw_d then some info.keywords else none
        ranking := if rank_d then some info.ranking else none
        attributes := if attr_d then some merged else none })

/-- Attribute maps considered equal as dicts: equal lookups everywhere. -/
def AttrMapsEqual (a b : List (String × String)) : Prop :=
  ∀ k, alookup a k = alookup b k

/-- The incoming attribute map differs from an optional existing one as
dicts (a missing existing map always differs, Python `dict != None`). -/
def AttrsDifferO (a : List (String × String))
    (o : Option (List (String × String))) : Prop :=
  match o with
  | none => True
  | some m => ¬ AttrMapsEqual a m

/-- The incoming attribute map differs from the existing record. -/
def AttrsDiffer (info : dataset_info) (ex : DatasetReadM) : Prop :=
  AttrsDifferO info.attributes ex.attributes

/-- What the comparison actually decides: an update is pushed exactly when
one of alt_uid, name, description, keyword set (unordered), ranking or the
attribute map differs; the merged attribute map looks up incoming keys
first and falls back to the existing map; and the creator / collected
fields never influence the result. -/
def ComparedFieldsSpec (info : dataset_info) (ex : DatasetReadM) : Prop :=
  ((compare_and_prepare_update info (some ex)).1 = true ↔
      (info.alt_uid ≠ ex.alt_uid ∨ info.name ≠ ex.name ∨
       info.description ≠ ex.description ∨
       ¬ (∀ k, k ∈ info.keywords ↔ k ∈ ex.keywords) ∨
       info.ranking ≠ ex.ranking ∨ AttrsDiffer info ex))
  ∧ (AttrsDiffer info ex →
      (compare_and_prepare_update info (some ex)).2.attributes =
        some (dict_update (ex.attributes.getD []) info.attributes))
  ∧ (∀ k, alookup (dict_update (ex.attributes.getD []) info.attributes) k =
      (alookup info.attributes k).orElse
        (fun _ => alookup (ex.attributes.getD []) k))
  ∧ (∀ c t,
      compare_and_prepare_update { info with creator := c, created := t }
          (some ex) =
        compare_and_prepare_update info (some ex))

/-! ## Work queue and retry scheduler (`crud/sync_items.py`)

`SyncItems` rows are modelled with integer timestamps (seconds) and
integer priorities (the claims depend only on the linear order of the
float `syncPriority`).  The SQL `ORDER BY ... LIMIT 1 OFFSET n` is
modelled as a sort followed by indexing. -/

/-- The columns of a `sync_items` row (`models/sync_items.py`) that
`read_next_sync_item` reads. -/
structure SyncItem where
  id : Nat
  sync_source_id : Nat
  syncPriority : Int
  synchronized : Bool
  attempts : Nat
  last_update : Int
deriving DecidableEq, Repr

/-- The retry-eligibility disjunction of the second query of
`read_next_sync_item` (`crud/sync_items.py` lines 83-88), with durations
in seconds: 20 min, 1 h, 2 h, 8 h, 1 day. -/
def retry_eligible (now : Int) (i : SyncItem) : Bool :=
  i.attempts == 0
  || (i.attempts == 1 && decide (i.last_update < now - 1200))
  || (i.attempts == 2 && decide (i.last_update < now - 3600))
  || (i.attempts == 3 && decide (i.last_update < now - 7200))
  || (i.attempts == 4 && decide (i.last_update < now - 28800))
  || (decide (5 ≤ i.attempts) && decide (i.last_update < now - 86400))

/-- Order of the first query: `syncPriority` descending. -/
def freshOrder (a b : SyncItem) : Prop := b.syncPriority ≤ a.syncPriority

/-- Order of the second query: `attempts` ascending, then `syncPriority`
descending. -/
def retryOrder (a b : SyncItem) : Prop :=
  a.attempts < b.attempts ∨
    (a.attempts = b.attempts ∧ b.syncPriority ≤ a.syncPriority)

instance : DecidableRel freshOrder := fun _ _ => Int.decLe _ _

instance : DecidableRel retryOrder := fun a b =>
  inferInstanceAs (Decidable (a.attempts < b.attempts ∨
    (a.attempts = b.attempts ∧ b.syncPriority ≤ a.syncPriority)))

instance : IsTotal SyncItem freshOrder :=
  ⟨fun a b => le_total b.syncPriority a.syncPriority⟩

instance : IsTrans SyncItem freshOrder :=
  ⟨fun _ _ _ hab hbc => le_trans hbc hab⟩

instance : IsTotal SyncItem retryOrder := by
  constructor
  intro a b
  rcases Nat.lt_trichotomy a.attempts b.attempts with h | h | h
  · exact Or.inl (Or.inl h)
  · rcases le_total b.syncPriority a.syncPriority with hp | hp
    · exact Or.inl (Or.inr ⟨h, hp⟩)
    · exact Or.inr (Or.inr ⟨h.symm, hp⟩)
  · exact Or.inr (Or.inl h)

instance : IsTrans SyncItem retryOrder := by
  constructor
  intro a b c hab hbc
  rcases hab with h | ⟨h1, h2⟩ <;> rcases hbc with h' | ⟨h1', h2'⟩
  · exact Or.inl (h.trans h')
  · exact Or.inl (h1' ▸ h)
  · exact Or.inl (h1 ▸ h')
  · exact Or.inr ⟨h1.trans h1', h2'.trans h2⟩

/-- Embeds `SyncItemsCrud.read_next_sync_item` (`crud/sync_items.py`
lines 64-99): first query selects unsynchronized rows with zero attempts
of the source ordered by priority descending; when that yields nothing at
the offset, the second query selects unsynchronized retry-eligible rows
ordered by attempts ascending then priority descending. -/
def read_next_sync_item (now : Int) (items : List SyncItem)
    (sync_source_id : Nat) (offset : Nat) : Option SyncItem :=
  let fresh := items.filter fun i =>
    i.sync_source_id == sync_source_id && !i.synchronized
      && i.attempts == 0
  match (List.insertionSort freshOrder fresh)[offset]? with
  | some it => some it
  | none =>
    let elig := items.filter fun i =>
      i.sync_source_id == sync_source_id && !i.synchronized
        && retry_eligible now i
    (List.insertionSort retryOrder elig)[offset]?

/-- The claimed backoff table, in seconds since `last_update`:
attempts 1 needs more than 20 minutes, 2 more than 1 hour, 3 more than
2 hours, 4 more than 8 hours, 5 and above more than 1 day. -/
def backoff_threshold (a : Nat) : Int :=
  if a = 0 then 0
  else if a = 1 then 1200
  else if a = 2 then 3600
  else if a = 3 then 7200
  else if a = 4 then 28800
  else 86400

/-- An item due per the claim: unsynchronized, and either fresh
(`attempts = 0`, eligible immediately) or past the backoff threshold for
its attempt count. -/
def EligibleSpec (now : Int) (i : SyncItem) : Prop :=
  i.synchronized = false ∧
    (i.attempts = 0 ∨
      (1 ≤ i.attempts ∧ backoff_threshold i.attempts < now - i.last_update))

/-- What `read_next_sync_item` guarantees about a returned item: it
belongs to the requested source and is due per the backoff table, and at
offset 0 no other due item of the source precedes it in the order
`attempts` ascending then priority descending (fresh items first). -/
def NextItemSpec (now : Int) (items : List SyncItem) (sid : Nat)
    (offset : Nat) (it : SyncItem) : Prop :=
  it.sync_source_id = sid ∧ EligibleSpec now it ∧
    (offset = 0 → ∀ j ∈ items, j.sync_source_id = sid →
      EligibleSpec now j →
      it.attempts < j.attempts ∨
        (it.attempts = j.attempts ∧ j.syncPriority ≤ it.syncPriority))

/-! ## Source-level error escalation (`run.py` lines 167-179,
`crud/sync_sources.py` lines 153-170)

A source's recorded iteration-level errors form a table with an
auto-incrementing primary key; `read_sync_source_errors` returns the most
recent ones (`ORDER BY id DESC LIMIT n`).  After recording a new error,
`run_sync_iter` sets the source to ERROR when the five most recent errors
carry strictly consecutive iteration numbers. -/

/-- A `SyncSourceErrors` row: primary key and the sync iteration in which
the exception occurred. -/
structure SyncSourceError where
  id : Nat
  sync_iteration : Int
deriving DecidableEq, Repr

/-- `ORDER BY id DESC`. -/
def errIdDesc (a b : SyncSourceError) : Prop := b.id ≤ a.id

instance : DecidableRel errIdDesc := fun a b =>
  inferInstanceAs (Decidable (b.id ≤ a.id))

instance : IsTotal SyncSourceError errIdDesc :=
  ⟨fun a b => le_total b.id a.id⟩

instance : IsTrans SyncSourceError errIdDesc :=
  ⟨fun _ _ _ hab hbc => le_trans hbc hab⟩

/-- Embeds `CRUD_sync_sources.read_sync_source_errors` with `skip = 0`:
the `limit` most recent error rows, newest first. -/
def read_sync_source_errors (errors : List SyncSourceError)
    (limit : Nat) : List SyncSourceError :=
  (List.insertionSort errIdDesc errors).take limit

/-- The Python generator
`all(error.sync_iteration == errors[0].sync_iteration - i ...)` unrolled:
entry `j` of the remaining list must equal `base - (k + j)`. -/
def consecutiveFrom (base : Int) (k : Int) :
    List SyncSourceError → Bool
  | [] => true
  | e :: rest =>
    decide (e.sync_iteration = base - k) && consecutiveFrom base (k + 1) rest

/-- The consecutiveness test of `run_sync_iter` (`run.py` lines 176-178):
every error's iteration equals the newest iteration minus its index
(Python `all` over an empty list is true). -/
def consecutive_check (errs : List SyncSourceError) : Bool :=
  match errs with
  | [] => true
  | e0 :: _ => consecutiveFrom e0.sync_iteration 0 errs

/-- Sync source statuses (`models/enums.py`). -/
inductive SyncSourceStatus where
  | SYNCHRONIZING
  | SYNCHRONIZED
  | ERROR
  | PAUSED
deriving DecidableEq, Repr

/-- `SyncConf.N_RETRIES_BEFORE_ERROR` (`run.py` line 54). -/
def N_RETRIES_BEFORE_ERROR : Nat := 5

/-- Embeds the exception branch of `run_sync_iter` (`run.py` lines
169-179): record the error row for the current iteration, reread the five
most recent errors and move the source to ERROR when there are five of
them with strictly consecutive iteration numbers. -/
def record_error_and_update_status (errors : List SyncSourceError)
    (nextId : Nat) (iter : Int) (status : SyncSourceStatus) :
    List SyncSourceError × SyncSourceStatus :=
  let errors2 := errors ++ [⟨nextId, iter⟩]
  let recent := read_sync_source_errors errors2 N_RETRIES_BEFORE_ERROR
  if decide (N_RETRIES_BEFORE_ERROR ≤ recent.length)
      && consecutive_check recent then
    (errors2, .ERROR)
  else (errors2, status)

/-- The claim's condition: the five most recent recorded errors exist and
their iteration numbers are exactly `i, i-1, i-2, i-3, i-4` with `i` the
newest one. -/
def ConsecutiveRecentSpec (errors : List SyncSourceError) : Prop :=
  (read_sync_source_errors errors N_RETRIES_BEFORE_ERROR).length =
    N_RETRIES_BEFORE_ERROR ∧
  ∀ k (hk : k < (read_sync_source_errors errors
        N_RETRIES_BEFORE_ERROR).length)
    (h0 : 0 < (read_sync_source_errors errors
        N_RETRIES_BEFORE_ERROR).length),
    ((read_sync_source_errors errors N_RETRIES_BEFORE_ERROR).get
        ⟨k, hk⟩).sync_iteration =
      ((read_sync_source_errors errors N_RETRIES_BEFORE_ERROR).get
        ⟨0, h0⟩).sync_iteration - k

/-! ## Structured run record (`sync/sync_records/manager.py`,
`sync/sync_records/models.py`)

The record is a tree of tasks, logs and errors.  A scoped `task` block is
modelled functionally: the body's outcome (its recorded children, whether
it already flagged the task through a direct `add_error`, and an optional
escaping exception) is passed to the exit handler, which produces the
completed task node appended to the parent — the functional image of the
`finally` that restores the current-node pointer. -/

/-- A record entry: `log message`, `error message stacktrace`, or
`task name content has_errors` (`models.py` LogEntry / ErrorEntry /
TaskEntry). -/
inductive LogItem where
  | log : String → LogItem
  | error : String → String → LogItem
  | task : String → List LogItem → Bool → LogItem

mutual
/-- One step of the loop body of `error_in_children` (`manager.py` lines
153-164): a direct ErrorEntry matches by message, a TaskEntry is searched
recursively, a LogEntry never matches. -/
def error_in_item (msg : String) : LogItem → Bool
  | .error m _ => m == msg
  | .task _ content _ => error_in_children msg content
  | .log _ => false

/-- Embeds `error_in_children` (`manager.py` lines 153-164) over a task's
content list. -/
def error_in_children (msg : String) : List LogItem → Bool
  | [] => false
  | item :: rest => error_in_item msg item || error_in_children msg rest
end

/-- A Python exception object: `str` is `str(e)`; `payload` distinguishes
objects with equal message so that re-raising unchanged is observable. -/
structure Exc where
  str : String
  payload : Nat
deriving DecidableEq, Repr

/-- Embeds the exception path of `SyncRecordManager.task` (`manager.py`
lines 35-65): on a body exception, either only flag the task (message
found by `error_in_children`) or append a new ErrorEntry
(`add_error(str(e), e)` stores `str(e)` as both message and stacktrace)
and flag it; the exception is re-raised either way.  Without an exception
the node keeps the flag the body produced. -/
def task_exit (name : String) (children : List LogItem)
    (bodyHasErrors : Bool) (exc : Option Exc) : LogItem × Option Exc :=
  match exc with
  | none => (.task name children bodyHasErrors, none)
  | some e =>
    if error_in_children e.str children then
      (.task name children true, some e)
    else
      (.task name (children ++ [.error e.str e.str]) true, some e)

/-- A completed `task` block as seen from the parent scope: the finished
node is appended to the parent content (the context manager restores the
current-node pointer to the parent in its `finally`). -/
def task_scope (parent : List LogItem) (name : String)
    (children : List LogItem) (bodyHasErrors : Bool) (exc : Option Exc) :
    List LogItem × Option Exc :=
  let r := task_exit name children bodyHasErrors exc
  (parent ++ [r.1], r.2)

/-- Embeds `SyncRecordManager.has_errors` (`manager.py` lines 67-75): only
top-level TaskEntry items are consulted. -/
def has_errors (logs : List LogItem) : Bool :=
  logs.any fun item =>
    match item with
    | .task _ _ he => he
    | _ => false

/-- `add_error` called while the current node is the root list
(`manager.py` lines 77-87): the entry is appended but the
`isinstance(TaskEntry)` guard fails, so no flag is set anywhere. -/
def add_error_root (logs : List LogItem) (message errorStr : String) :
    List LogItem :=
  logs ++ [.error message errorStr]

/-- An Error entry with message `msg` occurs in the item: directly, or
anywhere inside a task's content, recursively. -/
inductive HasErrorMsg (msg : String) : LogItem → Prop where
  | err (stack : String) : HasErrorMsg msg (.error msg stack)
  | task (name : String) (content : List LogItem) (he : Bool)
      (item : LogItem) : item ∈ content → HasErrorMsg msg item →
      HasErrorMsg msg (.task name content he)

/-- An Error entry with message `msg` was already recorded somewhere in
the given content (directly or by a nested descendant task). -/
def ErrorRecordedWithin (msg : String) (content : List LogItem) : Prop :=
  ∃ item ∈ content, HasErrorMsg msg item

/-- What the exit handler of a task block guarantees for an exception
`e`: the exception is re-raised unchanged, exactly the finished node is
appended to the parent, and a new Error entry is recorded precisely when
no entry with the same message already exists anywhere in the task's
recorded content; the task is flagged in both cases. -/
def TaskScopeSpec (parent : List LogItem) (name : String)
    (children : List LogItem) (bodyHE : Bool) (e : Exc) : Prop :=
  (task_scope parent name children bodyHE (some e)).2 = some e
  ∧ (ErrorRecordedWithin e.str children →
      (task_scope parent name children bodyHE (some e)).1 =
        parent ++ [LogItem.task name children true])
  ∧ (¬ ErrorRecordedWithin e.str children →
      (task_scope parent name children bodyHE (some e)).1 =
        parent ++ [LogItem.task name
          (children ++ [LogItem.error e.str e.str]) true])

/-- Some top-level entry of the record is a task flagged with errors. -/
def HasFlaggedTask (logs : List LogItem) : Prop :=
  ∃ item ∈ logs, ∃ n c, item = LogItem.task n c true

/-- Embeds the generic except handler of `sync_dataset` (`run.py` lines
291-293) for an exception escaping the backend call outside all task
blocks.  The handler executes
`sync_record.add_error("failed to synchronize dataset with error", e,
traceback_str)`: three positional arguments for
`SyncRecordManager.add_error(self, message, error)`, which accepts two
(`manager.py` line 77; the repository's own tests call it with two).
Python therefore raises TypeError inside the handler before any entry is
recorded, and the exception escapes `sync_dataset`. -/
def sync_dataset_exc_outside_tasks (_logs : List LogItem) (_e : Exc)
    (_tracebackStr : String) : Except String (List LogItem × Bool) :=
  Except.error
    "TypeError: add_error() takes 3 positional arguments but 4 were given"

/-- The handler behavior the claim (and the surrounding code) intends:
record the Error entry at the root and report success as the negation of
`has_errors` (`run.py` lines 295-304). -/
def sync_dataset_exc_outside_tasks_intended (logs : List LogItem)
    (e : Exc) : List LogItem × Bool :=
  let logs2 :=
    add_error_root logs "failed to synchronize dataset with error" e.str
  (logs2, !(has_errors logs2))

/-! ## Single-file uploader (`sync/uploader/file_uploader.py`)

`upload_new_file_single` is embedded over an environment assigning to each
attempt index the PUT outcome (`none` models a raised timeout or other
exception) and the checksum of the local file recomputed after that
attempt (the file may change during upload).  A digest is modelled by its
base64 and hex renderings. -/

/-- An MD5 digest, by its base64 (`b64encode(digest())`) and hex
(`hexdigest()`) renderings. -/
structure MD5Val where
  b64 : String
  hex : String
deriving DecidableEq, Repr

/-- The observable part of a PUT response: status code and the optional
`Content-MD5` / `ETag` headers. -/
structure PutResponse where
  status : Nat
  contentMD5 : Option String
  etag : Option String
deriving DecidableEq, Repr

/-- One attempt's environment: the PUT outcome (`none` when the request
raises) and the post-upload recomputed local checksum. -/
structure UploadAttempt where
  response : Option PutResponse
  recalculated : MD5Val
deriving DecidableEq, Repr

/-- Python `s.strip(chr(34))`: drop the double-quote characters
surrounding an ETag value. -/
def stripQuotes (s : String) : String :=
  String.mk
    (((s.toList.dropWhile (· == '"')).reverse.dropWhile (· == '"')).reverse)

/-- `MAX_TRIES` (`file_uploader.py` line 16). -/
def MAX_TRIES : Nat := 3

/-- One iteration of the retry loop (`file_uploader.py` lines 24-86): an
attempt succeeds when the PUT returns 200/201 and the checksum
verification passes — `Content-MD5`, when present, must equal the
recomputed base64 digest; otherwise `ETag`, when present, is unquoted and
compared case-insensitively with the recomputed hex digest; and the
recomputed base64 digest must equal the pre-upload one.  A raised request
or a non-2xx status fails the attempt. -/
def attempt_success (pre : MD5Val) (a : UploadAttempt) : Bool :=
  match a.response with
  | none => false
  | some r =>
    if r.status == 200 || r.status == 201 then
      (match r.contentMD5 with
        | some serverMd5 => serverMd5 == a.recalculated.b64
        | none =>
          match r.etag with
          | some tag =>
            (stripQuotes tag).toLower == a.recalculated.hex.toLower
          | none => true)
        && (a.recalculated.b64 == pre.b64)
    else false

/-- The retry loop: index of the first successful attempt among the next
`fuel` ones, starting at `n`. -/
def firstSuccessFrom (env : Nat → UploadAttempt) (pre : MD5Val) :
    Nat → Nat → Option Nat
  | _, 0 => none
  | n, fuel + 1 =>
    if attempt_success pre (env n) then some n
    else firstSuccessFrom env pre (n + 1) fuel

/-- The checksum handed to `file_validate_upload_single`. -/
structure FileValidateCall where
  md5_checksum : String
deriving DecidableEq, Repr

/-- Embeds `upload_new_file_single` (`file_uploader.py` lines 18-96): at
most `MAX_TRIES` PUT attempts; when all fail an upload-failed exception is
raised, otherwise the validate-upload endpoint is called with the
content-aware hex digest when one exists and the raw one otherwise. -/
def upload_new_file_single (env : Nat → UploadAttempt) (pre : MD5Val)
    (net4 : Option MD5Val) : Except String FileValidateCall :=
  match firstSuccessFrom env pre 0 MAX_TRIES with
  | none => .error "Failed to upload file after 3 attempts."
  | some _ =>
    .ok ⟨match net4 with | some n => n.hex | none => pre.hex⟩

/-- The claim's reading of a successful attempt: a 2xx response whose
`Content-MD5` header, when present, matches the recomputed base64 digest;
whose `ETag`, when consulted (no `Content-MD5`), matches the recomputed
hex digest after unquoting, case-insensitively; and whose recomputed
digest equals the pre-upload one. -/
def AttemptSuccessSpec (pre : MD5Val) (a : UploadAttempt) : Prop :=
  ∃ r, a.response = some r ∧ (r.status = 200 ∨ r.status = 201)
    ∧ (∀ s, r.contentMD5 = some s → s = a.recalculated.b64)
    ∧ (r.contentMD5 = none → ∀ t, r.etag = some t →
        (stripQuotes t).toLower = a.recalculated.hex.toLower)
    ∧ a.recalculated.b64 = pre.b64

/-- What C8 claims of the uploader: attempts succeed exactly per
`AttemptSuccessSpec`; the upload-failed exception is raised iff all of
the (at most three) attempts fail; the attempt taken is the first
successful one below `MAX_TRIES`; and on success the validate endpoint is
called with the content-aware checksum when present, the raw one
otherwise. -/
def UploadRetrySpec (env : Nat → UploadAttempt) (pre : MD5Val)
    (net4 : Option MD5Val) : Prop :=
  (∀ a, attempt_success pre a = true ↔ AttemptSuccessSpec pre a)
  ∧ ((∀ n, n < MAX_TRIES → attempt_success pre (env n) = false) ↔
      upload_new_file_single env pre net4 =
        .error "Failed to upload file after 3 attempts.")
  ∧ (∀ n, firstSuccessFrom env pre 0 MAX_TRIES = some n →
      n < MAX_TRIES ∧ attempt_success pre (env n) = true ∧
        ∀ m, m < n → attempt_success pre (env m) = false)
  ∧ ((∃ n, n < MAX_TRIES ∧ attempt_success pre (env n) = true) →
      upload_new_file_single env pre net4 =
        .ok ⟨(net4.map MD5Val.hex).getD pre.hex⟩)

/-- An environment where every PUT raises, for the C8 witness. -/
def failEnv : Nat → UploadAttempt :=
  fun _ => ⟨none, ⟨"b64", "hex"⟩⟩

/-! ## File upload decision (`sync/sync_utilities.py` lines 204-299)

`sync_utilities.upload_file` is embedded as the sequence of effects it
performs: run-record writes, the read of the existing file versions, and
the remote/local mutations, each tagged with the version id it targets.
Inside `upload_file` the binding `r_files, l_files = read_files(...)`
swaps the tuple returned by `read_files` (which returns local files
first), so — as in the source — `r_files` below holds the LOCAL records
and `l_files` the REMOTE ones.  The file's checksums are parameters (the
source computes them from the file on disk). -/

/-- Modelled from the spec: `generate_version_id` lives in the external
`etiket_client` package, not in this repository.  Per the spec the
version id is derived deterministically from the content timestamp, and an
id minted from the current timestamp is distinct from all known versions;
timestamps are modelled as integers and the derivation as the identity
(injective and strictly monotone). -/
def generate_version_id (ts : Int) : Int := ts

/-- Python `files.get(version_id)` over a version-indexed dict. -/
def vlookup {α : Type} : List (Int × α) → Int → Option α
  | [], _ => none
  | p :: rest, k => if p.1 == k then some p.2 else vlookup rest k

/-- `max_version_id = -1` when no versions exist, else
`max(list(l_files.keys()) + list(r_files.keys()))`
(`sync_utilities.py` lines 233-235). -/
def max_version_id (keys : List Int) : Int :=
  match keys with
  | [] => -1
  | k :: rest => rest.foldl max k

/-- An observable effect of `upload_file`: a run-record write, the read of
the existing versions, a remote record creation, a byte upload (with the
replace flag passed to `upload_file_to_server`), or a local file
replacement. -/
inductive UploadEffect where
  | record (note : String)
  | readFiles
  | createRemote (version_id : Int)
  | uploadBytes (version_id : Int) (replace : Bool)
  | replaceLocal (version_id : Int)
deriving DecidableEq, Repr

/-- Whether an effect mutates the file version `v`. -/
def touches : UploadEffect → Int → Bool
  | .createRemote v, w => v == w
  | .uploadBytes v _, w => v == w
  | .replaceLocal v, w => v == w
  | _, _ => false

/-- `should_upload` of `upload_file_to_server` (`sync_utilities.py` line
432): upload when the remote record is not secured or a replace is
requested. -/
def should_upload (status : FileStatusRem) (replace : Bool) : Bool :=
  !(status == FileStatusRem.secured) || replace

/-- The first branch condition of `upload_file` (`sync_utilities.py`
lines 259-260): neither classification at the derived version id is
MISMATCH and not both are EMPTY. -/
def branch1_cond (env : FSEnv) (r_files : List (Int × FileReadLocal))
    (l_files : List (Int × FileReadRem)) (md5c : String)
    (net4 : Option String) (vid : Int) : Bool :=
  let lc := (check_file_status_and_replacement_needed env
    ((vlookup r_files vid).map FileRecord.loc) md5c net4).1
  let rc := (check_file_status_and_replacement_needed env
    ((vlookup l_files vid).map FileRecord.rem) md5c net4).1
  !(lc == FileCompatibility.MISMATCH || rc == FileCompatibility.MISMATCH)
    && !(lc == FileCompatibility.EMPTY && rc == FileCompatibility.EMPTY)

/-- The second branch condition of `upload_file` (`sync_utilities.py`
lines 272-273): the latest known version classifies as MATCH on some side
and MISMATCH on neither. -/
def branch2_cond (env : FSEnv) (r_files : List (Int × FileReadLocal))
    (l_files : List (Int × FileReadRem)) (md5c : String)
    (net4 : Option String) (maxId : Int) : Bool :=
  let llc := (check_file_status_and_replacement_needed env
    ((vlookup r_files maxId).map FileRecord.loc) md5c net4).1
  let lrc := (check_file_status_and_replacement_needed env
    ((vlookup l_files maxId).map FileRecord.rem) md5c net4).1
  (llc == FileCompatibility.MATCH || lrc == FileCompatibility.MATCH)
    && (!(llc == FileCompatibility.MISMATCH)
        && !(lrc == FileCompatibility.MISMATCH))

/-- Embeds `sync_utilities.upload_file` (`sync_utilities.py` lines
204-299) as its effect sequence: open the upload task and log; stop there
for an empty file; otherwise read the versions, classify the derived and
latest version on both sides, and follow the three-way branch of lines
259-290 (upload under the derived id, under the latest id, or mint a new
id from the current time and upload unconditionally). -/
def upload_file_effects (env : FSEnv) (size : Nat)
    (r_files : List (Int × FileReadLocal))
    (l_files : List (Int × FileReadRem)) (md5c : String)
    (net4 : Option String) (created now : Int) : List UploadEffect :=
  if size == 0 then
    [.record "add_upload_task", .record "starting upload"]
  else
    let pre : List UploadEffect :=
      [.record "add_upload_task", .record "starting upload",
       .record "reading file versions", .readFiles]
    let file_version_id := generate_version_id created
    let maxId :=
      max_version_id ((l_files.map Prod.fst) ++ (r_files.map Prod.fst))
    let local_version := vlookup r_files file_version_id
    let remote_version := vlookup l_files file_version_id
    let local_last_version := vlookup r_files maxId
    let remote_last_version := vlookup l_files maxId
    let lrep := (check_file_status_and_replacement_needed env
      (local_version.map FileRecord.loc) md5c net4).2
    let rrep := (check_file_status_and_replacement_needed env
      (remote_version.map FileRecord.rem) md5c net4).2
    let llrep := (check_file_status_and_replacement_needed env
      (local_last_version.map FileRecord.loc) md5c net4).2
    let lrrep := (check_file_status_and_replacement_needed env
      (remote_last_version.map FileRecord.rem) md5c net4).2
    if branch1_cond env r_files l_files md5c net4 file_version_id then
      pre
        ++ (match remote_version with
            | none => [.record "creating remote record",
                       .createRemote file_version_id]
            | some _ => [.record "remote record exists"])
        ++ [.uploadBytes file_version_id rrep]
        ++ (if local_version.isSome && lrep then
              [.record "replacing local file",
               .replaceLocal file_version_id]
            else [])
    else if branch2_cond env r_files l_files md5c net4 maxId then
      pre
        ++ (match remote_last_version with
            | none => [.record "creating remote record",
                       .createRemote maxId]
            | some _ => [.record "remote record exists"])
        ++ [.uploadBytes maxId lrrep]
        ++ (if local_last_version.isSome && llrep then
              [.record "replacing local file", .replaceLocal maxId]
            else [])
    else
      pre ++ [.record "incompatible, creating new version",
        .createRemote (generate_version_id now),
        .uploadBytes (generate_version_id now) false]

/-- What C2 claims of the incompatible branch: the minted id derives from
the current timestamp, the effect sequence creates a remote record under
it and uploads unconditionally (a fresh record is never secured, so
`should_upload` holds with no replace), the minted id differs from every
known version id, and no mutating effect touches any existing version. -/
def MintNewVersionSpec (env : FSEnv) (size : Nat)
    (r_files : List (Int × FileReadLocal))
    (l_files : List (Int × FileReadRem)) (md5c : String)
    (net4 : Option String) (created now : Int) : Prop :=
  upload_file_effects env size r_files l_files md5c net4 created now =
    [.record "add_upload_task", .record "starting upload",
     .record "reading file versions", .readFiles,
     .record "incompatible, creating new version",
     .createRemote (generate_version_id now),
     .uploadBytes (generate_version_id now) false]
  ∧ (∀ v ∈ (l_files.map Prod.fst) ++ (r_files.map Prod.fst),
      generate_version_id now ≠ v)
  ∧ (∀ e ∈ upload_file_effects env size r_files l_files md5c net4
        created now,
      ∀ v ∈ (l_files.map Prod.fst) ++ (r_files.map Prod.fst),
        touches e v = false)
  ∧ should_upload FileStatusRem.pending false = true

/-- Checksum environment for the C2 witness (never consulted on the
witness path). -/
def wit_env : FSEnv := ⟨fun _ => "deadbeef", fun _ => none⟩

/-- One secured immutable remote version with stored checksum "X" at
version id 100 (the candidate's derived id). -/
def wit_l_files : List (Int × FileReadRem) :=
  [(100, ⟨FileStatusRem.secured, some "X", true⟩)]

/-! ## Bulk enqueue (`crud/sync_items.py` lines 22-62)

`create_sync_items` looks up existing rows in batches of 10000
dataIdentifiers (one SELECT per batch), builds one dict of the found rows,
then updates matched rows (priority set, attempts and synchronized reset)
and bulk-inserts the rest.  New-row ids are modelled as consecutive from
`nextId`; `uuid.uuid4()` for items without a dataset uuid is modelled by a
supply function indexed by the new row id. -/

/-- The columns of a `sync_items` row that `create_sync_items` touches;
`synchronized`/`attempts` carry the model defaults `false`/`0`
(`models/sync_items.py` lines 57-58). -/
structure SyncItemRow where
  id : Nat
  sync_source_id : Nat
  dataIdentifier : String
  datasetUUID : Nat
  syncPriority : Int
  synchronized : Bool
  attempts : Nat
deriving DecidableEq, Repr

/-- A submitted item: identifier, optional dataset uuid, priority. -/
structure NewSyncItem where
  dataIdentifier : String
  datasetUUID : Option Nat
  syncPriority : Int
deriving DecidableEq, Repr

/-- `batch_size` (`crud/sync_items.py` line 27). -/
def batch_size : Nat := 10000

/-- `range(0, len(sync_items), batch_size)` slicing: the submitted items
in consecutive batches of `batch_size`. -/
def chunks : List NewSyncItem → List (List NewSyncItem)
  | [] => []
  | x :: xs =>
    ((x :: xs).take batch_size) :: chunks ((x :: xs).drop batch_size)
termination_by l => l.length
decreasing_by
  simp only [List.length_drop, List.length_cons, batch_size]
  omega

/-- One SELECT per batch (`crud/sync_items.py` lines 33-36): the rows of
the source whose dataIdentifier occurs in the batch. -/
def existing_lookup_queries (rows : List SyncItemRow) (sourceId : Nat)
    (items : List NewSyncItem) : List (List SyncItemRow) :=
  (chunks items).map fun batch =>
    rows.filter fun r =>
      r.sync_source_id == sourceId
        && batch.any fun it => it.dataIdentifier == r.dataIdentifier

/-- The dict `{item.dataIdentifier: item for item in existing_items_result}`
looked up at `d`: Python dict comprehension keeps the last item per key,
i.e. the first in the reversed list. -/
def existing_dict_find (existing : List SyncItemRow) (d : String) :
    Option SyncItemRow :=
  existing.reverse.find? fun r => r.dataIdentifier == d

/-- One entry of `update_list` (`crud/sync_items.py` lines 46-49): the
matched row id and the submitted priority; `synchronized` and `attempts`
are reset to constants. -/
structure UpdateEntry where
  id : Nat
  syncPriority : Int
deriving DecidableEq, Repr

/-- The `update_list` built over the submitted items. -/
def update_list (existing : List SyncItemRow) (items : List NewSyncItem) :
    List UpdateEntry :=
  items.filterMap fun it =>
    (existing_dict_find existing it.dataIdentifier).map fun r =>
      ⟨r.id, it.syncPriority⟩

/-- The `create_list`: submitted items without an existing row. -/
def create_list (existing : List SyncItemRow) (items : List NewSyncItem) :
    List NewSyncItem :=
  items.filter fun it =>
    (existing_dict_find existing it.dataIdentifier).isNone

/-- The bulk UPDATE by primary key, applied entry by entry (executemany):
a matching entry sets the priority and resets `synchronized`/`attempts`. -/
def apply_updates : List UpdateEntry → SyncItemRow → SyncItemRow
  | [], row => row
  | e :: rest, row =>
    apply_updates rest
      (if e.id == row.id then
        { row with syncPriority := e.syncPriority, synchronized := false,
                   attempts := 0 }
      else row)

/-- The bulk INSERT: one new row per created item, ids consecutive from
`nextId`, dataset uuid taken from the item or minted by `freshUUID`,
`synchronized`/`attempts` at their column defaults. -/
def insert_rows (sourceId : Nat) (freshUUID : Nat → Nat) :
    Nat → List NewSyncItem → List SyncItemRow
  | _, [] => []
  | nextId, it :: rest =>
    { id := nextId, sync_source_id := sourceId,
      dataIdentifier := it.dataIdentifier,
      datasetUUID := it.datasetUUID.getD (freshUUID nextId),
      syncPriority := it.syncPriority,
      synchronized := false, attempts := 0 }
      :: insert_rows sourceId freshUUID (nextId + 1) rest

/-- Embeds `SyncItemsCrud.create_sync_items` (`crud/sync_items.py` lines
22-62); the second component counts the SELECT queries issued by the
batched lookup. -/
def create_sync_items (rows : List SyncItemRow) (sourceId : Nat)
    (items : List NewSyncItem) (nextId : Nat) (freshUUID : Nat → Nat) :
    List SyncItemRow × Nat :=
  if items.isEmpty then (rows, 0)
  else
    let existing := (existing_lookup_queries rows sourceId items).flatten
    let ups := update_list existing items
    let crs := create_list existing items
    (rows.map (apply_updates ups)
       ++ insert_rows sourceId freshUUID nextId crs,
     (existing_lookup_queries rows sourceId items).length)

/-- What C5 claims of `create_sync_items`: every submitted item matching
an existing row of the source leaves that row with the submitted priority
and reset `attempts`/`synchronized` (identity fields untouched); every
unmatched item is inserted as a new row of the source; and the lookup is
batched — exactly ceil(n / 10000) SELECT queries, fewer than one per item
from two items on. -/
def EnqueueSpec (rows : List SyncItemRow) (sourceId : Nat)
    (items : List NewSyncItem) (nextId : Nat) (freshUUID : Nat → Nat) :
    Prop :=
  (∀ it ∈ items, ∀ r ∈ rows, r.sync_source_id = sourceId →
    r.dataIdentifier = it.dataIdentifier →
    ∃ r2 ∈ (create_sync_items rows sourceId items nextId freshUUID).1,
      r2.id = r.id ∧ r2.sync_source_id = r.sync_source_id ∧
      r2.dataIdentifier = r.dataIdentifier ∧
      r2.datasetUUID = r.datasetUUID ∧
      r2.syncPriority = it.syncPriority ∧
      r2.synchronized = false ∧ r2.attempts = 0)
  ∧ (∀ it ∈ items,
      (∀ r ∈ rows, ¬(r.sync_source_id = sourceId ∧
        r.dataIdentifier = it.dataIdentifier)) →
      ∃ r2 ∈ (create_sync_items rows sourceId items nextId freshUUID).1,
        r2.sync_source_id = sourceId ∧
        r2.dataIdentifier = it.dataIdentifier ∧
        r2.syncPriority = it.syncPriority ∧
        r2.synchronized = false ∧ r2.attempts = 0)
  ∧ (create_sync_items rows sourceId items nextId freshUUID).2 =
      (items.length + (batch_size - 1)) / batch_size
  ∧ (2 ≤ items.length →
      (create_sync_items rows sourceId items nextId freshUUID).2 <
        items.length)

/-- One existing row and two submitted items (one update, one insert) for
the C5 witness. -/
def witRows : List SyncItemRow :=
  [{ id := 7, sync_source_id := 1, dataIdentifier := "ds-a",
     datasetUUID := 70, syncPriority := 1, synchronized := true,
     attempts := 3 }]

/-- The submitted items of the C5 witness. -/
def witItems : List NewSyncItem :=
  [{ dataIdentifier := "ds-a", datasetUUID := none, syncPriority := 9 },
   { dataIdentifier := "ds-b", datasetUUID := some 71, syncPriority := 4 }]

/-- Four previously recorded errors at consecutive iterations 10-13. -/
def errors0 : List SyncSourceError :=
  [⟨1, 10⟩, ⟨2, 11⟩, ⟨3, 12⟩, ⟨4, 13⟩]

/-- A concrete queue for the C3 witness: one failed item past its
20-minute backoff and one fresher but not yet due item. -/
def queue0 : List SyncItem :=
  [{ id := 1, sync_source_id := 1, syncPriority := 5, synchronized := false,
     attempts := 1, last_update := 0 },
   { id := 2, sync_source_id := 1, syncPriority := 9, synchronized := false,
     attempts := 2, last_update := 99000 }]

/-- The item `read_next_sync_item` returns on `queue0` at time 100000. -/
def queue0_next : SyncItem :=
  { id := 1, sync_source_id := 1, syncPriority := 5, synchronized := false,
    attempts := 1, last_update := 0 }

/-- Incoming metadata differing only in creator and collected time from
`cmp_existing0`; all fields the source compares agree. -/
def cmp_info0 : dataset_info :=
  { alt_uid := none, name := "ds", description := some "d",
    keywords := ["a", "b"], ranking := 0, attributes := [("k", "v")],
    creator := "alice", created := 5 }

/-- Existing dataset record agreeing with `cmp_info0` on every compared
field but with a different creator and collected time. -/
def cmp_existing0 : DatasetReadM :=
  { alt_uid := none, name := "ds", description := some "d",
    keywords := ["b", "a"], ranking := 0, attributes := some [("k", "v")],
    creator := "bob", collected := 7 }

/-- **C1.** `check_file_status_and_replacement_needed` realizes exactly the
spec table `classify_spec`: EMPTY for a missing record; for local records
MATCH with no replacement when nothing is materialized or either checksum
agrees and MISMATCH with no replacement otherwise; for remote records
MATCH when not secured, MATCH on a stored-checksum match, MATCH with
`needsReplacement` on a secured mutable mismatch, MISMATCH on a secured
immutable mismatch, and MISMATCH when secured without a stored
checksum. -/
theorem check_file_status_matches_spec_table (env : FSEnv)
    (file : Option FileRecord) (md5c : String) (net4 : Option String) :
    check_file_status_and_replacement_needed env file md5c net4 =
      classify_spec env file md5c net4 := by
  cases file with
  | none => rfl
  | some fr =>
    cases fr with
    | loc f =>
      cases hp : f.local_path with
      | none =>
        simp [check_file_status_and_replacement_needed, classify_spec, hp]
      | some p =>
        simp only [check_file_status_and_replacement_needed, classify_spec,
          has_MD5_match, hp]
        cases hraw : env.md5At p == md5c with
        | true => simp [hraw]
        | false =>
          cases net4 with
          | none => simp [hraw]
          | some c =>
            cases hn : env.md5NetcdfAt p with
            | none => simp [hraw, hn]
            | some l => simp [hraw, hn]
    | rem f =>
      cases hs : f.status with
      | pending =>
        simp [check_file_status_and_replacement_needed, classify_spec, hs]
      | secured =>
        cases hm : f.md5_checksum with
        | none =>
          simp [check_file_status_and_replacement_needed, classify_spec,
            hs, hm]
        | some stored =>
          simp only [check_file_status_and_replacement_needed, classify_spec,
            has_MD5_match, hs, hm]
          cases hraw : stored == md5c with
          | true => simp [hraw]
          | false =>
            cases net4 with
            | none => simp [hraw]
            | some c => cases hc : stored == c <;> simp [hraw, hc]

theorem alookup_append (a b : List (String × String)) (k : String) :
    alookup (a ++ b) k = (alookup a k).orElse (fun _ => alookup b k) := by
  induction a with
  | nil => simp [alookup]
  | cons p rest ih =>
    by_cases h : p.1 == k
    · simp [alookup, h]
    · simp [alookup, h, ih]

theorem alookup_map_update (base inc : List (String × String)) (k : String) :
    alookup (base.map (fun p => (p.1, (alookup inc p.1).getD p.2))) k =
      (alookup base k).map (fun v => (alookup inc k).getD v) := by
  induction base with
  | nil => simp [alookup]
  | cons p rest ih =>
    by_cases h : p.1 == k
    · have hk : p.1 = k := eq_of_beq h
      simp [alookup, h, hk]
    · simp [alookup, h, ih]

theorem alookup_filter_none (base inc : List (String × String)) (k : String)
    (hk : alookup base k = none) :
    alookup (inc.filter (fun p => alookup base p.1 == none)) k =
      alookup inc k := by
  induction inc with
  | nil => simp
  | cons p rest ih =>
    by_cases h : p.1 == k
    · have hpk : p.1 = k := eq_of_beq h
      simp [List.filter_cons, hpk, hk, alookup]
    · by_cases hq : alookup base p.1 = none
      · simp [List.filter_cons, hq, alookup, h, ih]
      · simp [List.filter_cons, hq, alookup, h, ih]

theorem alookup_dict_update (base inc : List (String × String)) (k : String) :
    alookup (dict_update base inc) k =
      (alookup inc k).orElse (fun _ => alookup base k) := by
  unfold dict_update
  rw [alookup_append, alookup_map_update]
  cases hb : alookup base k with
  | none =>
    rw [alookup_filter_none base inc k hb]
    cases alookup inc k <;> simp
  | some v =>
    cases alookup inc k <;> simp

theorem alookup_eq_some_of_mem (m : List (String × String))
    (p : String × String) (hm : p ∈ m)
    (hnd : (m.map Prod.fst).Nodup) : alookup m p.1 = some p.2 := by
  induction m with
  | nil => cases hm
  | cons q rest ih =>
    rcases List.mem_cons.mp hm with h | h
    · subst h
      simp [alookup]
    · have hnd' : (rest.map Prod.fst).Nodup := (List.nodup_cons.mp hnd).2
      have hq : q.1 ∉ rest.map Prod.fst := (List.nodup_cons.mp hnd).1
      have hne : q.1 ≠ p.1 := by
        intro he
        exact hq (he ▸ List.mem_map_of_mem Prod.fst h)
      have : (q.1 == p.1) = false := beq_false_of_ne hne
      simp [alookup, this, ih h hnd']

theorem mem_of_alookup_eq_some (m : List (String × String)) (k : String)
    (v : String) (h : alookup m k = some v) :
    ∃ p ∈ m, p.1 = k ∧ p.2 = v := by
  induction m with
  | nil => simp [alookup] at h
  | cons q rest ih =>
    cases hq : (q.1 == k) with
    | true =>
      simp only [alookup, hq, if_true] at h
      exact ⟨q, List.mem_cons_self _ _, eq_of_beq hq,
        Option.some.inj h⟩
    | false =>
      simp only [alookup, hq, Bool.false_eq_true, if_false] at h
      obtain ⟨p, hp, hk, hv⟩ := ih h
      exact ⟨p, List.mem_cons_of_mem _ hp, hk, hv⟩

theorem attr_eq_imp (a b : List (String × String))
    (h : attr_eq a b = true) : AttrMapsEqual a b := by
  unfold attr_eq at h
  rw [Bool.and_eq_true] at h
  obtain ⟨h1, h2⟩ := h
  rw [List.all_eq_true] at h1 h2
  intro k
  cases ha : alookup a k with
  | some v =>
    obtain ⟨p, hp, hk, hv⟩ := mem_of_alookup_eq_some a k v ha
    have := of_decide_eq_true (h1 p hp)
    rw [hk, hv] at this
    exact this.symm
  | none =>
    cases hbk : alookup b k with
    | none => rfl
    | some w =>
      obtain ⟨p, hp, hk, hv⟩ := mem_of_alookup_eq_some b k w hbk
      have := of_decide_eq_true (h2 p hp)
      rw [hk, hv] at this
      rw [this] at ha
      cases ha

theorem attr_eq_of_equal (a b : List (String × String))
    (ha : (a.map Prod.fst).Nodup) (hb : (b.map Prod.fst).Nodup)
    (h : AttrMapsEqual a b) : attr_eq a b = true := by
  unfold attr_eq
  rw [Bool.and_eq_true, List.all_eq_true, List.all_eq_true]
  constructor
  · intro p hp
    exact decide_eq_true ((h p.1).symm.trans (alookup_eq_some_of_mem a p hp ha))
  · intro p hp
    exact decide_eq_true ((h p.1).trans (alookup_eq_some_of_mem b p hp hb))

theorem kw_set_eq_iff (a b : List String) :
    kw_set_eq a b = true ↔ ∀ k, k ∈ a ↔ k ∈ b := by
  unfold kw_set_eq
  rw [Bool.and_eq_true, List.all_eq_true, List.all_eq_true]
  constructor
  · intro ⟨h1, h2⟩ k
    exact ⟨fun hk => of_decide_eq_true (h1 k hk),
           fun hk => of_decide_eq_true (h2 k hk)⟩
  · intro h
    exact ⟨fun k hk => decide_eq_true ((h k).mp hk),
           fun k hk => decide_eq_true ((h k).mpr hk)⟩

/-- **C4, counterexample.** The claim says an update is pushed when the
creator (or collected time) differs; at `cmp_info0` / `cmp_existing0`,
which differ exactly in creator and collected time, the code pushes no
update. -/
theorem compare_update_ignores_creator_collected :
    (compare_and_prepare_update cmp_info0 (some cmp_existing0)).1 = false
    ∧ cmp_info0.creator ≠ cmp_existing0.creator
    ∧ cmp_info0.created ≠ cmp_existing0.collected := by
  refine ⟨by decide, by decide, by decide⟩

theorem kw_component_iff (a b : List String) :
    ((!kw_set_eq a b) = true) ↔ ¬ (∀ k, k ∈ a ↔ k ∈ b) := by
  constructor
  · intro hb hk
    rw [(kw_set_eq_iff a b).mpr hk] at hb
    cases hb
  · intro hk
    cases hkw : kw_set_eq a b
    · rfl
    · exact absurd ((kw_set_eq_iff a b).mp hkw) hk

theorem attr_differs_bool_iff (a : List (String × String))
    (o : Option (List (String × String)))
    (hA : (a.map Prod.fst).Nodup)
    (hO : ∀ m, o = some m → (m.map Prod.fst).Nodup) :
    attr_differs_bool a o = true ↔ AttrsDifferO a o := by
  cases o with
  | none => simp [attr_differs_bool, AttrsDifferO]
  | some m =>
    simp only [attr_differs_bool, AttrsDifferO]
    constructor
    · intro hb hEq
      rw [attr_eq_of_equal a m hA (hO m rfl) hEq] at hb
      cases hb
    · intro hd
      cases hae : attr_eq a m
      · rfl
      · exact absurd (attr_eq_imp a m hae) hd

theorem attr_differs_bool_of_differs (a : List (String × String))
    (o : Option (List (String × String)))
    (hd : AttrsDifferO a o) : attr_differs_bool a o = true := by
  cases o with
  | none => rfl
  | some m =>
    simp only [attr_differs_bool]
    cases hae : attr_eq a m
    · rfl
    · exact absurd (attr_eq_imp a m hae) hd

theorem or6_eq_true_iff {a b c d e f : Bool} {A B C D E F : Prop}
    (ha : a = true ↔ A) (hb : b = true ↔ B) (hc : c = true ↔ C)
    (hd : d = true ↔ D) (he : e = true ↔ E) (hf : f = true ↔ F) :
    ((a || b || c || d || e || f) = true) ↔ (A ∨ B ∨ C ∨ D ∨ E ∨ F) := by
  simp only [Bool.or_eq_true, ha, hb, hc, hd, he, hf, or_assoc]

/-- **C4, amended.** The reconciler pushes an update iff one of alt-id,
name, description, keyword set (as unordered set), ranking or attribute
map differs (creator and collected time are never compared), and the
pushed attribute map is the union-merge starting from the existing map
with incoming keys overwriting. -/
theorem compare_and_prepare_update_compared_fields (info : dataset_info)
    (ex : DatasetReadM)
    (hA : (info.attributes.map Prod.fst).Nodup)
    (hB : ∀ m, ex.attributes = some m → (m.map Prod.fst).Nodup) :
    ComparedFieldsSpec info ex := by
  refine ⟨?_, ?_, fun k => alookup_dict_update _ _ k, fun c t => rfl⟩
  · exact or6_eq_true_iff (by simp) (by simp) (by simp)
      (kw_component_iff info.keywords ex.keywords) (by simp)
      (attr_differs_bool_iff info.attributes ex.attributes hA hB)
  · intro h
    have hb := attr_differs_bool_of_differs info.attributes ex.attributes h
    simp [compare_and_prepare_update, hb]

theorem retry_eligible_iff (now : Int) (i : SyncItem) :
    retry_eligible now i = true ↔
      (i.attempts = 0 ∨
        (1 ≤ i.attempts ∧
          backoff_threshold i.attempts < now - i.last_update)) := by
  simp only [retry_eligible, Bool.or_eq_true, Bool.and_eq_true, beq_iff_eq,
    decide_eq_true_eq, backoff_threshold]
  split_ifs <;> omega

theorem mem_of_getElem_opt {α : Type} {l : List α} {n : Nat} {x : α}
    (h : l[n]? = some x) : x ∈ l := by
  induction l generalizing n with
  | nil => cases h
  | cons a t ih =>
    cases n with
    | zero =>
      simp only [List.getElem?_cons_zero, Option.some.injEq] at h
      exact h ▸ List.mem_cons_self _ _
    | succ m =>
      simp only [List.getElem?_cons_succ] at h
      exact List.mem_cons_of_mem _ (ih h)

theorem sorted_head_min {r : SyncItem → SyncItem → Prop} [DecidableRel r]
    [IsTotal SyncItem r] [IsTrans SyncItem r]
    (l : List SyncItem) (x : SyncItem)
    (h : (List.insertionSort r l)[0]? = some x) :
    ∀ j ∈ l, j = x ∨ r x j := by
  have hperm := List.perm_insertionSort r l
  have hsorted := List.sorted_insertionSort r l
  revert h hperm hsorted
  generalize List.insertionSort r l = s
  intro h hperm hsorted
  cases s with
  | nil => cases h
  | cons y rest =>
    simp only [List.getElem?_cons_zero, Option.some.injEq] at h
    subst h
    intro j hj
    rcases List.mem_cons.mp (hperm.mem_iff.mpr hj) with h1 | h1
    · exact Or.inl h1
    · exact Or.inr ((List.sorted_cons.mp hsorted).1 j h1)

/-- **C3.** A sync item returned by `read_next_sync_item` belongs to the
requested source, is unsynchronized, and is either fresh (`attempts = 0`,
due immediately) or past its backoff threshold (20 min / 1 h / 2 h / 8 h /
1 day for attempts 1 / 2 / 3 / 4 / 5 and above, strictly exceeded since
`last_update`); at offset 0 the returned item minimizes attempts and among
equal attempts maximizes priority over all due items of the source, fresh
items being served first. -/
theorem read_next_sync_item_backoff (now : Int) (items : List SyncItem)
    (sid : Nat) (offset : Nat) (it : SyncItem)
    (h : read_next_sync_item now items sid offset = some it) :
    NextItemSpec now items sid offset it := by
  simp only [read_next_sync_item] at h
  split at h
  case _ x heq =>
    injection h with hx
    subst hx
    have hmem := mem_of_getElem_opt heq
    have hmem' := (List.perm_insertionSort freshOrder _).mem_iff.mp hmem
    obtain ⟨hin, hpred⟩ := List.mem_filter.mp hmem'
    simp only [Bool.and_eq_true, beq_iff_eq, Bool.not_eq_true'] at hpred
    obtain ⟨⟨hsid, hsync⟩, hatt⟩ := hpred
    refine ⟨hsid, ⟨hsync, Or.inl hatt⟩, ?_⟩
    intro h0 j hj hjsid hjel
    subst h0
    by_cases hj0 : j.attempts = 0
    · have hjf : j ∈ items.filter fun i =>
          i.sync_source_id == sid && !i.synchronized && i.attempts == 0 := by
        refine List.mem_filter.mpr ⟨hj, ?_⟩
        simp only [Bool.and_eq_true, beq_iff_eq, Bool.not_eq_true']
        exact ⟨⟨hjsid, hjel.1⟩, hj0⟩
      rcases sorted_head_min _ _ heq j hjf with h1 | h1
      · subst h1
        exact Or.inr ⟨rfl, le_refl _⟩
      · exact Or.inr ⟨by omega, h1⟩
    · exact Or.inl (by omega)
  case _ hnone =>
    have hmem := mem_of_getElem_opt h
    have hmem' := (List.perm_insertionSort retryOrder _).mem_iff.mp hmem
    obtain ⟨hin, hpred⟩ := List.mem_filter.mp hmem'
    simp only [Bool.and_eq_true, beq_iff_eq, Bool.not_eq_true'] at hpred
    obtain ⟨⟨hsid, hsync⟩, hret⟩ := hpred
    refine ⟨hsid, ⟨hsync, ((retry_eligible_iff now it).mp hret)⟩, ?_⟩
    intro h0 j hj hjsid hjel
    subst h0
    have hjf : j ∈ items.filter fun i =>
        i.sync_source_id == sid && !i.synchronized && retry_eligible now i := by
      refine List.mem_filter.mpr ⟨hj, ?_⟩
      simp only [Bool.and_eq_true, beq_iff_eq, Bool.not_eq_true']
      exact ⟨⟨hjsid, hjel.1⟩, (retry_eligible_iff now j).mpr hjel.2⟩
    rcases sorted_head_min _ _ h j hjf with h1 | h1
    · subst h1
      exact Or.inr ⟨rfl, le_refl _⟩
    · exact h1

/-- **C3, witness.** On `queue0` at time 100000 the scheduler returns the
failed item past its 20-minute backoff, and the theorem instantiates. -/
theorem read_next_sync_item_backoff_witness :
    NextItemSpec 100000 queue0 1 0 queue0_next :=
  read_next_sync_item_backoff 100000 queue0 1 0 queue0_next (by decide)

theorem consecutiveFrom_iff (base : Int) (l : List SyncSourceError) :
    ∀ k : Int, consecutiveFrom base k l = true ↔
      ∀ j (hj : j < l.length),
        (l.get ⟨j, hj⟩).sync_iteration = base - (k + j) := by
  induction l with
  | nil =>
    intro k
    simp [consecutiveFrom]
  | cons e rest ih =>
    intro k
    simp only [consecutiveFrom, Bool.and_eq_true, decide_eq_true_eq]
    constructor
    · rintro ⟨h0, hrest⟩ j hj
      cases j with
      | zero => simpa using h0
      | succ m =>
        have hm : m < rest.length := by
          simpa [Nat.succ_lt_succ_iff] using hj
        have := (ih (k + 1)).mp hrest m hm
        have hget : ((e :: rest).get ⟨m + 1, hj⟩) = rest.get ⟨m, hm⟩ := rfl
        rw [hget, this]
        push_cast
        ring
    · intro hall
      refine ⟨?_, ?_⟩
      · simpa using hall 0 (Nat.succ_pos _)
      · rw [ih (k + 1)]
        intro j hj
        have hj1 : j + 1 < (e :: rest).length := by
          simpa [Nat.succ_lt_succ_iff] using hj
        have := hall (j + 1) hj1
        have hget : ((e :: rest).get ⟨j + 1, hj1⟩) = rest.get ⟨j, hj⟩ := rfl
        rw [hget] at this
        rw [this]
        push_cast
        ring

theorem consecutive_cond_iff (errs : List SyncSourceError) :
    (decide (N_RETRIES_BEFORE_ERROR ≤
        (read_sync_source_errors errs N_RETRIES_BEFORE_ERROR).length)
      && consecutive_check
          (read_sync_source_errors errs N_RETRIES_BEFORE_ERROR)) = true
    ↔ ConsecutiveRecentSpec errs := by
  have hlen : (read_sync_source_errors errs N_RETRIES_BEFORE_ERROR).length ≤
      N_RETRIES_BEFORE_ERROR := by
    simp [read_sync_source_errors, List.length_take]
  rw [Bool.and_eq_true, decide_eq_true_eq]
  unfold ConsecutiveRecentSpec
  revert hlen
  generalize read_sync_source_errors errs N_RETRIES_BEFORE_ERROR = recent
  intro hlen
  constructor
  · rintro ⟨h5, hcons⟩
    refine ⟨le_antisymm hlen h5, ?_⟩
    cases recent with
    | nil =>
      intro k hk h0
      simp at hk
    | cons e0 rest =>
      simp only [consecutive_check] at hcons
      intro k hk h0
      have := (consecutiveFrom_iff e0.sync_iteration (e0 :: rest) 0).mp
        hcons k hk
      simpa using this
  · rintro ⟨h5, hcons⟩
    refine ⟨h5.ge, ?_⟩
    cases recent with
    | nil => rfl
    | cons e0 rest =>
      simp only [consecutive_check]
      rw [consecutiveFrom_iff]
      intro j hj
      have := hcons j hj (Nat.succ_pos _)
      simpa using this

/-- **C6.** After `run_sync_iter` records an iteration-level exception for
a source whose status is not already ERROR, the source moves to ERROR if
and only if the five most recent recorded errors exist and carry strictly
consecutive iteration numbers `i, i-1, i-2, i-3, i-4`; five errors that
are not strictly consecutive never trigger the transition. -/
theorem run_sync_iter_error_escalation (errors : List SyncSourceError)
    (nextId : Nat) (iter : Int) (status : SyncSourceStatus)
    (hstatus : status ≠ .ERROR) :
    ((record_error_and_update_status errors nextId iter status).2 =
        SyncSourceStatus.ERROR) ↔
      ConsecutiveRecentSpec (errors ++ [⟨nextId, iter⟩]) := by
  simp only [record_error_and_update_status]
  split
  case isTrue hcond =>
    exact iff_of_true rfl ((consecutive_cond_iff _).mp hcond)
  case isFalse hcond =>
    exact iff_of_false hstatus
      (fun hs => hcond ((consecutive_cond_iff _).mpr hs))

/-- **C6, witness.** The escalation theorem instantiated after a fifth
consecutive error (iterations 10-14). -/
theorem run_sync_iter_error_escalation_witness :
    ((record_error_and_update_status errors0 5 14
        SyncSourceStatus.SYNCHRONIZING).2 = SyncSourceStatus.ERROR) ↔
      ConsecutiveRecentSpec (errors0 ++ [⟨5, 14⟩]) :=
  run_sync_iter_error_escalation errors0 5 14 SyncSourceStatus.SYNCHRONIZING
    (by decide)

/-- **C4, witness.** The amended theorem applied at the concrete pair
`cmp_info0` / `cmp_existing0`. -/
theorem compare_and_prepare_update_compared_fields_witness :
    ComparedFieldsSpec cmp_info0 cmp_existing0 :=
  compare_and_prepare_update_compared_fields cmp_info0 cmp_existing0
    (by decide)
    (by
      intro m hm
      injection hm with h
      rw [← h]
      decide)

theorem error_bridge (msg : String) (n : Nat) :
    (∀ it : LogItem, sizeOf it ≤ n →
      (error_in_item msg it = true ↔ HasErrorMsg msg it)) ∧
    (∀ l : List LogItem, sizeOf l ≤ n →
      (error_in_children msg l = true ↔ ErrorRecordedWithin msg l)) := by
  induction n using Nat.strong_induction_on with
  | _ n ih =>
    constructor
    · intro it hsz
      cases it with
      | log s =>
        constructor
        · intro h
          cases h
        · intro h
          cases h
      | error m stack =>
        simp only [error_in_item, beq_iff_eq]
        constructor
        · intro h
          subst h
          exact HasErrorMsg.err stack
        · intro h
          cases h
          rfl
      | task nm content he =>
        have hlt : sizeOf content < n := by
          have hs : sizeOf content < sizeOf (LogItem.task nm content he) := by
            simp only [LogItem.task.sizeOf_spec]
            omega
          omega
        have hbridge := (ih (sizeOf content) hlt).2 content (le_refl _)
        simp only [error_in_item]
        rw [hbridge]
        constructor
        · rintro ⟨item, hmem, hh⟩
          exact HasErrorMsg.task nm content he item hmem hh
        · intro h
          cases h with
          | task _ _ _ item hmem hh => exact ⟨item, hmem, hh⟩
    · intro l hsz
      cases l with
      | nil =>
        simp [error_in_children, ErrorRecordedWithin]
      | cons item rest =>
        have h1 : sizeOf item < n := by
          have hs : sizeOf (item :: rest) = 1 + sizeOf item + sizeOf rest :=
            List.cons.sizeOf_spec item rest
          omega
        have h2 : sizeOf rest < n := by
          have hs : sizeOf (item :: rest) = 1 + sizeOf item + sizeOf rest :=
            List.cons.sizeOf_spec item rest
          omega
        have hit := (ih (sizeOf item) h1).1 item (le_refl _)
        have hrest := (ih (sizeOf rest) h2).2 rest (le_refl _)
        simp only [error_in_children, Bool.or_eq_true]
        rw [hit, hrest]
        unfold ErrorRecordedWithin
        constructor
        · rintro (h | ⟨x, hx, hh⟩)
          · exact ⟨item, List.mem_cons_self _ _, h⟩
          · exact ⟨x, List.mem_cons_of_mem _ hx, hh⟩
        · rintro ⟨x, hx, hh⟩
          rcases List.mem_cons.mp hx with h | h
          · subst h
            exact Or.inl hh
          · exact Or.inr ⟨x, h, hh⟩

theorem error_in_children_iff (msg : String) (l : List LogItem) :
    error_in_children msg l = true ↔ ErrorRecordedWithin msg l :=
  (error_bridge msg (sizeOf l)).2 l (le_refl _)

/-- **C7, counterexample.** With an Error entry of message "boom"
recorded directly in the current task (its content holds no nested task at
all, so no nested descendant task recorded it), an escaping exception with
message "boom" is deduplicated: the task is only flagged and no new Error
entry is appended — the claim instead demands a new entry here. -/
theorem task_dedup_direct_entry_cex :
    (task_exit "t" [LogItem.error "boom" "trace"] false
        (some ⟨"boom", 0⟩)).1 =
      LogItem.task "t" [LogItem.error "boom" "trace"] true
    ∧ (∀ item ∈ [LogItem.error "boom" "trace"],
        ∀ n c he, item = LogItem.task n c he → False) := by
  constructor
  · rfl
  · rintro item hmem n c he heq
    rcases List.mem_singleton.mp hmem with rfl
    simp at heq

/-- **C7, amended.** On an exception inside a scoped task block: if an
Error entry with the same message string already exists anywhere within
the task's recorded content — recorded directly in the task or by a
nested descendant task — the task is marked `has_errors` without a new
Error entry; otherwise a new Error entry is recorded and the task marked;
in both cases the original exception object is re-raised unchanged and
the completed node is handed back to the parent scope. -/
theorem task_scope_error_handling (parent : List LogItem) (name : String)
    (children : List LogItem) (bodyHE : Bool) (e : Exc) :
    TaskScopeSpec parent name children bodyHE e := by
  have hb := error_in_children_iff e.str children
  unfold TaskScopeSpec task_scope task_exit
  cases hd : error_in_children e.str children with
  | true =>
    rw [hd] at hb
    refine ⟨?_, ?_, ?_⟩
    · simp [hd]
    · intro _
      simp [hd]
    · intro hn
      exact absurd (hb.mp rfl) hn
  | false =>
    rw [hd] at hb
    refine ⟨?_, ?_, ?_⟩
    · simp [hd]
    · intro h
      exact absurd (hb.mpr h) (by decide)
    · intro _
      simp [hd]

/-- **C7, witness.** The amended theorem at a concrete scope: parent with
one log, a child content with a nested failed task recording "boom", and
an escaping exception "boom". -/
theorem task_scope_error_handling_witness :
    TaskScopeSpec [LogItem.log "outer"] "upload data.h5"
      [LogItem.task "inner" [LogItem.error "boom" "boom"] true] false
      ⟨"boom", 7⟩ :=
  task_scope_error_handling [LogItem.log "outer"] "upload data.h5"
    [LogItem.task "inner" [LogItem.error "boom" "boom"] true] false
    ⟨"boom", 7⟩

theorem chunks_join_aux :
    ∀ n (l : List NewSyncItem), l.length ≤ n → (chunks l).flatten = l := by
  intro n
  induction n using Nat.strong_induction_on with
  | _ n ih =>
    intro l hl
    cases l with
    | nil => simp [chunks]
    | cons x xs =>
      rw [chunks, List.flatten_cons]
      have hlen : ((x :: xs).drop batch_size).length < (x :: xs).length := by
        simp only [List.length_drop, List.length_cons, batch_size]
        omega
      rw [ih ((x :: xs).drop batch_size).length
        (by omega) _ (le_refl _)]
      exact List.take_append_drop _ _

theorem chunks_join (l : List NewSyncItem) : (chunks l).flatten = l :=
  chunks_join_aux l.length l (le_refl _)

theorem chunks_length_aux :
    ∀ n (l : List NewSyncItem), l.length ≤ n →
      (chunks l).length = (l.length + (batch_size - 1)) / batch_size := by
  intro n
  induction n using Nat.strong_induction_on with
  | _ n ih =>
    intro l hl
    cases l with
    | nil => simp [chunks, batch_size]
    | cons x xs =>
      rw [chunks]
      simp only [List.length_cons]
      have hlen : ((x :: xs).drop batch_size).length < (x :: xs).length := by
        simp only [List.length_drop, List.length_cons, batch_size]
        omega
      rw [ih ((x :: xs).drop batch_size).length (by omega) _ (le_refl _)]
      simp only [List.length_drop, List.length_cons, batch_size]
      omega

theorem chunks_length (l : List NewSyncItem) :
    (chunks l).length = (l.length + (batch_size - 1)) / batch_size :=
  chunks_length_aux l.length l (le_refl _)

theorem existing_mem (rows : List SyncItemRow) (sourceId : Nat)
    (items : List NewSyncItem) :
    ∀ r ∈ (existing_lookup_queries rows sourceId items).flatten,
      r ∈ rows ∧ r.sync_source_id = sourceId := by
  intro r hr
  rw [List.mem_flatten] at hr
  obtain ⟨s, hs, hrs⟩ := hr
  unfold existing_lookup_queries at hs
  rw [List.mem_map] at hs
  obtain ⟨batch, hbatch, rfl⟩ := hs
  rw [List.mem_filter] at hrs
  obtain ⟨hrow, hpred⟩ := hrs
  simp only [Bool.and_eq_true, beq_iff_eq] at hpred
  exact ⟨hrow, hpred.1⟩

theorem existing_contains (rows : List SyncItemRow) (sourceId : Nat)
    (items : List NewSyncItem) (it : NewSyncItem) (r : SyncItemRow)
    (hit : it ∈ items) (hr : r ∈ rows)
    (hsrc : r.sync_source_id = sourceId)
    (hident : r.dataIdentifier = it.dataIdentifier) :
    r ∈ (existing_lookup_queries rows sourceId items).flatten := by
  have hit2 : it ∈ (chunks items).flatten := by
    rw [chunks_join]
    exact hit
  rw [List.mem_flatten] at hit2
  obtain ⟨c, hc, hitc⟩ := hit2
  rw [List.mem_flatten]
  refine ⟨rows.filter fun row =>
      row.sync_source_id == sourceId
        && c.any fun it2 => it2.dataIdentifier == row.dataIdentifier,
    ?_, ?_⟩
  · unfold existing_lookup_queries
    exact List.mem_map_of_mem _ hc
  · rw [List.mem_filter]
    refine ⟨hr, ?_⟩
    simp only [Bool.and_eq_true, beq_iff_eq]
    refine ⟨hsrc, ?_⟩
    rw [List.any_eq_true]
    refine ⟨it, hitc, ?_⟩
    simp [hident]

theorem existing_find_some_spec (rows : List SyncItemRow) (sourceId : Nat)
    (items : List NewSyncItem) (d : String) (r3 : SyncItemRow)
    (h : existing_dict_find
        ((existing_lookup_queries rows sourceId items).flatten) d =
      some r3) :
    r3 ∈ rows ∧ r3.sync_source_id = sourceId ∧ r3.dataIdentifier = d := by
  unfold existing_dict_find at h
  have hp : r3.dataIdentifier = d := by
    simpa using List.find?_some h
  have hm := List.mem_reverse.mp (List.mem_of_find?_eq_some h)
  obtain ⟨h1, h2⟩ := existing_mem rows sourceId items r3 hm
  exact ⟨h1, h2, hp⟩

theorem existing_find_matching (rows : List SyncItemRow) (sourceId : Nat)
    (items : List NewSyncItem)
    (huniq : ∀ r1 ∈ rows, ∀ r2 ∈ rows,
      r1.sync_source_id = r2.sync_source_id →
      r1.dataIdentifier = r2.dataIdentifier → r1 = r2)
    (it : NewSyncItem) (r : SyncItemRow) (hit : it ∈ items) (hr : r ∈ rows)
    (hsrc : r.sync_source_id = sourceId)
    (hident : r.dataIdentifier = it.dataIdentifier) :
    existing_dict_find
        ((existing_lookup_queries rows sourceId items).flatten)
        it.dataIdentifier = some r := by
  have hrmem := existing_contains rows sourceId items it r hit hr hsrc hident
  unfold existing_dict_find
  cases hf : ((existing_lookup_queries rows sourceId items).flatten).reverse.find?
      (fun row => row.dataIdentifier == it.dataIdentifier) with
  | none =>
    exfalso
    have := List.find?_eq_none.mp hf r (List.mem_reverse.mpr hrmem)
    apply this
    simp [hident]
  | some r3 =>
    have hp : r3.dataIdentifier = it.dataIdentifier := by
      simpa using List.find?_some hf
    have hm := List.mem_reverse.mp (List.mem_of_find?_eq_some hf)
    obtain ⟨h1, h2⟩ := existing_mem rows sourceId items r3 hm
    have heq : r3 = r := huniq r3 h1 r hr (by rw [h2, hsrc])
      (by rw [hp, hident])
    rw [heq]

theorem existing_find_none (rows : List SyncItemRow) (sourceId : Nat)
    (items : List NewSyncItem) (it : NewSyncItem)
    (hno : ∀ r ∈ rows, ¬(r.sync_source_id = sourceId ∧
      r.dataIdentifier = it.dataIdentifier)) :
    existing_dict_find
        ((existing_lookup_queries rows sourceId items).flatten)
        it.dataIdentifier = none := by
  unfold existing_dict_find
  cases hf : ((existing_lookup_queries rows sourceId items).flatten).reverse.find?
      (fun row => row.dataIdentifier == it.dataIdentifier) with
  | none => rfl
  | some r3 =>
    exfalso
    have hp : r3.dataIdentifier = it.dataIdentifier := by
      simpa using List.find?_some hf
    have hm := List.mem_reverse.mp (List.mem_of_find?_eq_some hf)
    obtain ⟨h1, h2⟩ := existing_mem rows sourceId items r3 hm
    exact hno r3 h1 ⟨h2, hp⟩

theorem apply_updates_fixed (p : Int) :
    ∀ (entries : List UpdateEntry) (row : SyncItemRow),
      row.syncPriority = p → row.synchronized = false → row.attempts = 0 →
      (∀ e ∈ entries, e.id = row.id → e.syncPriority = p) →
      apply_updates entries row = row := by
  intro entries
  induction entries with
  | nil =>
    intro row _ _ _ _
    rfl
  | cons e rest ih =>
    intro row hpri hsync hatt hall
    simp only [apply_updates]
    split
    next htrue =>
      have hep : e.syncPriority = p :=
        hall e (List.mem_cons_self _ _) (eq_of_beq htrue)
      have hrow : ({ row with syncPriority := e.syncPriority, synchronized := false, attempts := 0 } : SyncItemRow) = row := by
        cases row
        simp_all
      rw [hrow]
      exact ih row hpri hsync hatt
        (fun e2 he2 hid => hall e2 (List.mem_cons_of_mem _ he2) hid)
    next hfalse =>
      exact ih row hpri hsync hatt
        (fun e2 he2 hid => hall e2 (List.mem_cons_of_mem _ he2) hid)

theorem apply_updates_sets (p : Int) :
    ∀ (entries : List UpdateEntry) (row : SyncItemRow),
      (∀ e ∈ entries, e.id = row.id → e.syncPriority = p) →
      (∃ e ∈ entries, e.id = row.id) →
      apply_updates entries row =
        { row with syncPriority := p, synchronized := false,
                   attempts := 0 } := by
  intro entries
  induction entries with
  | nil =>
    intro row _ hex
    obtain ⟨e, he, _⟩ := hex
    cases he
  | cons e rest ih =>
    intro row hall hex
    simp only [apply_updates]
    split
    next htrue =>
      have hep : e.syncPriority = p :=
        hall e (List.mem_cons_self _ _) (eq_of_beq htrue)
      rw [hep]
      exact apply_updates_fixed p rest _ rfl rfl rfl
        (fun e2 he2 hid => hall e2 (List.mem_cons_of_mem _ he2) hid)
    next hfalse =>
      apply ih row
        (fun e2 he2 hid => hall e2 (List.mem_cons_of_mem _ he2) hid)
      obtain ⟨e2, he2, hid⟩ := hex
      rcases List.mem_cons.mp he2 with rfl | h2
      · exact absurd (by simp [hid]) hfalse
      · exact ⟨e2, h2, hid⟩

theorem insert_rows_mem (sourceId : Nat) (freshUUID : Nat → Nat) :
    ∀ (l : List NewSyncItem) (nid : Nat) (it : NewSyncItem), it ∈ l →
      ∃ row ∈ insert_rows sourceId freshUUID nid l,
        row.sync_source_id = sourceId ∧
        row.dataIdentifier = it.dataIdentifier ∧
        row.syncPriority = it.syncPriority ∧
        row.synchronized = false ∧ row.attempts = 0 := by
  intro l
  induction l with
  | nil =>
    intro nid it h
    cases h
  | cons x xs ih =>
    intro nid it h
    rcases List.mem_cons.mp h with rfl | h2
    · exact ⟨_, List.mem_cons_self _ _, rfl, rfl, rfl, rfl, rfl⟩
    · obtain ⟨row, hrow, hprops⟩ := ih (nid + 1) it h2
      exact ⟨row, List.mem_cons_of_mem _ hrow, hprops⟩

theorem create_sync_items_result_nonempty (rows : List SyncItemRow)
    (sourceId : Nat) (items : List NewSyncItem) (nextId : Nat)
    (freshUUID : Nat → Nat) (hne : items.isEmpty = false) :
    (create_sync_items rows sourceId items nextId freshUUID).1 =
      rows.map (apply_updates (update_list
          ((existing_lookup_queries rows sourceId items).flatten) items))
        ++ insert_rows sourceId freshUUID nextId
            (create_list
              ((existing_lookup_queries rows sourceId items).flatten)
              items) := by
  simp only [create_sync_items, hne, Bool.false_eq_true, if_false]

theorem create_sync_items_query_count (rows : List SyncItemRow)
    (sourceId : Nat) (items : List NewSyncItem) (nextId : Nat)
    (freshUUID : Nat → Nat) :
    (create_sync_items rows sourceId items nextId freshUUID).2 =
      (items.length + (batch_size - 1)) / batch_size := by
  cases items with
  | nil => simp [create_sync_items, batch_size]
  | cons x xs =>
    have hne : ((x :: xs) : List NewSyncItem).isEmpty = false := rfl
    simp only [create_sync_items, hne, Bool.false_eq_true, if_false]
    unfold existing_lookup_queries
    rw [List.length_map]
    exact chunks_length (x :: xs)

/-- **C5.** `create_sync_items` updates every submitted item whose
dataIdentifier exists for the source — its row gets the submitted
priority, `attempts = 0`, `synchronized = false`, identity fields
untouched — inserts a new row for every item whose dataIdentifier does
not exist, and batches the existence lookup by dataIdentifier:
ceil(n / 10000) SELECT queries, fewer than one per item from two items
on. -/
theorem create_sync_items_enqueue (rows : List SyncItemRow)
    (sourceId : Nat) (items : List NewSyncItem) (nextId : Nat)
    (freshUUID : Nat → Nat)
    (hids : (rows.map SyncItemRow.id).Nodup)
    (huniq : ∀ r1 ∈ rows, ∀ r2 ∈ rows,
      r1.sync_source_id = r2.sync_source_id →
      r1.dataIdentifier = r2.dataIdentifier → r1 = r2)
    (hitems : (items.map NewSyncItem.dataIdentifier).Nodup) :
    EnqueueSpec rows sourceId items nextId freshUUID := by
  refine ⟨?_, ?_, create_sync_items_query_count rows sourceId items
    nextId freshUUID, ?_⟩
  · intro it hit r hr hsrc hident
    have hne : items.isEmpty = false := by
      cases items with
      | nil => cases hit
      | cons _ _ => rfl
    have hfind := existing_find_matching rows sourceId items huniq it r
      hit hr hsrc hident
    rw [create_sync_items_result_nonempty rows sourceId items nextId
      freshUUID hne]
    have hmem_entry : (⟨r.id, it.syncPriority⟩ : UpdateEntry) ∈
        update_list ((existing_lookup_queries rows sourceId items).flatten)
          items := by
      apply List.mem_filterMap.mpr
      refine ⟨it, hit, ?_⟩
      rw [hfind]
      rfl
    have hall : ∀ e ∈ update_list
        ((existing_lookup_queries rows sourceId items).flatten) items,
        e.id = r.id → e.syncPriority = it.syncPriority := by
      intro e he hid
      obtain ⟨it2, hit2, hf2⟩ := List.mem_filterMap.mp he
      cases hff : existing_dict_find
          ((existing_lookup_queries rows sourceId items).flatten)
          it2.dataIdentifier with
      | none =>
        rw [hff] at hf2
        cases hf2
      | some r3 =>
        rw [hff] at hf2
        injection hf2 with hf2
        subst hf2
        obtain ⟨h1, h2, h3⟩ := existing_find_some_spec rows sourceId items
          it2.dataIdentifier r3 hff
        have heq3 : r3 = r := List.inj_on_of_nodup_map hids h1 hr hid
        have hident2 : it2.dataIdentifier = it.dataIdentifier := by
          rw [← h3, heq3, hident]
        have heqit : it2 = it :=
          List.inj_on_of_nodup_map hitems hit2 hit hident2
        rw [heqit]
    have happly := apply_updates_sets it.syncPriority
      (update_list ((existing_lookup_queries rows sourceId items).flatten)
        items) r hall ⟨⟨r.id, it.syncPriority⟩, hmem_entry, rfl⟩
    refine ⟨apply_updates (update_list
        ((existing_lookup_queries rows sourceId items).flatten) items) r,
      List.mem_append_left _ (List.mem_map_of_mem _ hr), ?_⟩
    rw [happly]
    exact ⟨rfl, rfl, rfl, rfl, rfl, rfl, rfl⟩
  · intro it hit hno
    have hne : items.isEmpty = false := by
      cases items with
      | nil => cases hit
      | cons _ _ => rfl
    rw [create_sync_items_result_nonempty rows sourceId items nextId
      freshUUID hne]
    have hfindnone := existing_find_none rows sourceId items it hno
    have hitc : it ∈ create_list
        ((existing_lookup_queries rows sourceId items).flatten) items := by
      apply List.mem_filter.mpr
      refine ⟨hit, ?_⟩
      rw [hfindnone]
      rfl
    obtain ⟨row, hrow, h1, h2, h3, h4, h5⟩ := insert_rows_mem sourceId
      freshUUID (create_list
        ((existing_lookup_queries rows sourceId items).flatten) items)
      nextId it hitc
    exact ⟨row, List.mem_append_right _ hrow, h1, h2, h3, h4, h5⟩
  · intro hlen
    rw [create_sync_items_query_count rows sourceId items nextId freshUUID]
    have hpos : 0 < batch_size := by
      simp [batch_size]
    rw [Nat.div_lt_iff_lt_mul hpos]
    simp only [batch_size]
    omega

/-- **C5, witness.** The enqueue theorem at one existing row (updated)
and one fresh identifier (inserted). -/
theorem create_sync_items_enqueue_witness :
    EnqueueSpec witRows 1 witItems 100 (fun n => n + 1000) :=
  create_sync_items_enqueue witRows 1 witItems 100 (fun n => n + 1000)
    (by decide) (by decide) (by decide)

/-- **C2.** When both the derived-version classification and the
latest-version classification fail the compatibility conditions (and the
file is nonempty), `upload_file` mints a brand-new version id derived
from the current timestamp, creates a remote record under it, and uploads
unconditionally (a freshly created record is not secured, so the upload
is not skipped); given that all known version ids derive from earlier
timestamps, the minted id differs from every version id known on either
side and no mutating effect touches an existing version — in particular a
secured immutable remote version at the derived id is left untouched. -/
theorem upload_file_mints_fresh_version (env : FSEnv) (size : Nat)
    (r_files : List (Int × FileReadLocal))
    (l_files : List (Int × FileReadRem)) (md5c : String)
    (net4 : Option String) (created now : Int)
    (hsize : size ≠ 0)
    (hb1 : branch1_cond env r_files l_files md5c net4
      (generate_version_id created) = false)
    (hb2 : branch2_cond env r_files l_files md5c net4
      (max_version_id ((l_files.map Prod.fst) ++ (r_files.map Prod.fst)))
        = false)
    (hfresh : ∀ v ∈ (l_files.map Prod.fst) ++ (r_files.map Prod.fst),
      v < generate_version_id now) :
    MintNewVersionSpec env size r_files l_files md5c net4 created now := by
  have hs0 : (size == 0) = false := by
    simpa using hsize
  have heff : upload_file_effects env size r_files l_files md5c net4
      created now =
      [.record "add_upload_task", .record "starting upload",
       .record "reading file versions", .readFiles,
       .record "incompatible, creating new version",
       .createRemote (generate_version_id now),
       .uploadBytes (generate_version_id now) false] := by
    simp only [upload_file_effects, hs0, Bool.false_eq_true, if_false,
      hb1, hb2]
    rfl
  refine ⟨heff, ?_, ?_, rfl⟩
  · intro v hv
    have := hfresh v hv
    omega
  · intro e he v hv
    have hvlt := hfresh v hv
    have hne : (generate_version_id now == v) = false := by
      simp only [beq_eq_false_iff_ne]
      omega
    rw [heff] at he
    simp only [List.mem_cons, List.not_mem_nil, or_false] at he
    rcases he with rfl | rfl | rfl | rfl | rfl | rfl | rfl <;>
      simp [touches, hne]

/-- **C2, witness.** The theorem instantiated at a secured immutable
remote version with checksum "X" at the derived id 100 and a candidate
with checksum "Y" (file size 10, current timestamp 200). -/
theorem upload_file_mints_fresh_version_witness :
    MintNewVersionSpec wit_env 10 [] wit_l_files "Y" none 100 200 :=
  upload_file_mints_fresh_version wit_env 10 [] wit_l_files "Y" none 100 200
    (by decide) (by decide) (by decide) (by decide)

/-- **C9.** For an empty file (size 0), `upload_file` stops right after
opening the upload task: it performs only run-record effects — no file
versions are read, no remote record is created, no bytes are uploaded,
and no local file is replaced. -/
theorem upload_file_empty_only_touches_record (env : FSEnv)
    (r_files : List (Int × FileReadLocal))
    (l_files : List (Int × FileReadRem)) (md5c : String)
    (net4 : Option String) (created now : Int) :
    upload_file_effects env 0 r_files l_files md5c net4 created now =
      [.record "add_upload_task", .record "starting upload"]
    ∧ ∀ e ∈ upload_file_effects env 0 r_files l_files md5c net4 created now,
        ∃ s, e = UploadEffect.record s := by
  have h : upload_file_effects env 0 r_files l_files md5c net4 created now =
      [.record "add_upload_task", .record "starting upload"] := by
    simp [upload_file_effects]
  refine ⟨h, ?_⟩
  rw [h]
  intro e he
  simp only [List.mem_cons, List.not_mem_nil, or_false] at he
  rcases he with rfl | rfl
  · exact ⟨"add_upload_task", rfl⟩
  · exact ⟨"starting upload", rfl⟩

theorem firstSuccessFrom_none_iff (env : Nat → UploadAttempt)
    (pre : MD5Val) :
    ∀ fuel start, firstSuccessFrom env pre start fuel = none ↔
      ∀ k, k < fuel → attempt_success pre (env (start + k)) = false := by
  intro fuel
  induction fuel with
  | zero =>
    intro start
    simp [firstSuccessFrom]
  | succ f ih =>
    intro start
    simp only [firstSuccessFrom]
    cases hs : attempt_success pre (env start) with
    | true =>
      simp only [hs, if_true]
      refine iff_of_false (by simp) ?_
      intro hall
      have := hall 0 (Nat.succ_pos _)
      rw [Nat.add_zero] at this
      rw [this] at hs
      cases hs
    | false =>
      simp only [hs, Bool.false_eq_true, if_false]
      rw [ih (start + 1)]
      constructor
      · intro h k hk
        cases k with
        | zero => simpa using hs
        | succ m =>
          rw [show start + (m + 1) = start + 1 + m by omega]
          exact h m (by omega)
      · intro h k hk
        rw [show start + 1 + k = start + (k + 1) by omega]
        exact h (k + 1) (by omega)

theorem firstSuccessFrom_some_spec (env : Nat → UploadAttempt)
    (pre : MD5Val) :
    ∀ fuel start n, firstSuccessFrom env pre start fuel = some n →
      start ≤ n ∧ n < start + fuel ∧
        attempt_success pre (env n) = true ∧
        ∀ m, start ≤ m → m < n → attempt_success pre (env m) = false := by
  intro fuel
  induction fuel with
  | zero =>
    intro start n h
    cases h
  | succ f ih =>
    intro start n h
    simp only [firstSuccessFrom] at h
    cases hs : attempt_success pre (env start) with
    | true =>
      rw [hs] at h
      simp only [if_true, Option.some.injEq] at h
      subst h
      exact ⟨le_refl _, by omega, hs, fun m hm1 hm2 => absurd hm2 (by omega)⟩
    | false =>
      rw [hs] at h
      simp only [Bool.false_eq_true, if_false] at h
      obtain ⟨h1, h2, h3, h4⟩ := ih (start + 1) n h
      refine ⟨by omega, by omega, h3, ?_⟩
      intro m hm1 hm2
      rcases Nat.eq_or_lt_of_le hm1 with heq | hlt
      · rw [← heq]
        exact hs
      · exact h4 m hlt hm2

theorem attempt_success_iff (pre : MD5Val) (a : UploadAttempt) :
    attempt_success pre a = true ↔ AttemptSuccessSpec pre a := by
  unfold attempt_success AttemptSuccessSpec
  cases hr : a.response with
  | none => simp
  | some r =>
    simp only [Option.some.injEq]
    constructor
    · intro h
      cases hst : (r.status == 200 || r.status == 201) with
      | false =>
        rw [hst] at h
        cases h
      | true =>
        rw [hst] at h
        simp only [if_true, Bool.and_eq_true] at h
        obtain ⟨hh, hl⟩ := h
        have hstat : r.status = 200 ∨ r.status = 201 := by
          simpa only [Bool.or_eq_true, beq_iff_eq] using hst
        refine ⟨r, rfl, hstat, ?_, ?_, eq_of_beq hl⟩
        · intro s hsome
          rw [hsome] at hh
          exact eq_of_beq hh
        · intro hnone t htag
          rw [hnone, htag] at hh
          exact eq_of_beq hh
    · rintro ⟨r2, rfl, hstat, hmd5, hetag, hloc⟩
      have hst : (r.status == 200 || r.status == 201) = true := by
        rcases hstat with h | h <;> simp [h]
      rw [hst]
      simp only [if_true, Bool.and_eq_true]
      constructor
      · cases hm : r.contentMD5 with
        | some s => simp [hmd5 s hm]
        | none =>
          cases he : r.etag with
          | some t => simp [hetag hm t he]
          | none => rfl
      · simp [hloc]

/-- **C8.** The raw PUT is attempted at most `MAX_TRIES = 3` times; an
attempt counts as successful exactly when the response is 2xx, the
`Content-MD5` (or, failing that, the unquoted `ETag`, case-insensitively)
header matches the post-upload recomputed checksum whenever present, and
the recomputed checksum equals the pre-upload one; the upload-failed
exception is raised iff all three attempts fail, and on success the
validate-upload endpoint is called with the content-aware checksum when
one exists, the raw checksum otherwise. -/
theorem upload_new_file_single_retry (env : Nat → UploadAttempt)
    (pre : MD5Val) (net4 : Option MD5Val) : UploadRetrySpec env pre net4 := by
  refine ⟨attempt_success_iff pre, ?_, ?_, ?_⟩
  · constructor
    · intro h
      have hnone : firstSuccessFrom env pre 0 MAX_TRIES = none :=
        (firstSuccessFrom_none_iff env pre MAX_TRIES 0).mpr
          (fun k hk => by simpa using h k hk)
      simp [upload_new_file_single, hnone]
    · intro h n hn
      cases hf : firstSuccessFrom env pre 0 MAX_TRIES with
      | none =>
        have := (firstSuccessFrom_none_iff env pre MAX_TRIES 0).mp hf n hn
        simpa using this
      | some m =>
        rw [upload_new_file_single.eq_def, hf] at h
        cases h
  · intro n h
    obtain ⟨h1, h2, h3, h4⟩ := firstSuccessFrom_some_spec env pre MAX_TRIES 0 n h
    exact ⟨by omega, h3, fun m hm => h4 m (Nat.zero_le _) hm⟩
  · rintro ⟨n, hn, hs⟩
    cases hf : firstSuccessFrom env pre 0 MAX_TRIES with
    | some m =>
      rw [upload_new_file_single.eq_def, hf]
      cases net4 <;> rfl
    | none =>
      have := (firstSuccessFrom_none_iff env pre MAX_TRIES 0).mp hf n hn
      simp only [Nat.zero_add] at this
      rw [this] at hs
      cases hs

/-- **C8, witness.** The retry specification instantiated at the
environment where every PUT raises. -/
theorem upload_new_file_single_retry_witness :
    UploadRetrySpec failEnv ⟨"b64", "hex"⟩ none :=
  upload_new_file_single_retry failEnv ⟨"b64", "hex"⟩ none

theorem has_errors_append_error (logs : List LogItem) (m s : String) :
    has_errors (add_error_root logs m s) = has_errors logs := by
  simp [has_errors, add_error_root, List.any_append]

theorem has_errors_iff_flagged (logs : List LogItem) :
    has_errors logs = true ↔ HasFlaggedTask logs := by
  unfold has_errors HasFlaggedTask
  rw [List.any_eq_true]
  constructor
  · rintro ⟨item, hmem, hpred⟩
    refine ⟨item, hmem, ?_⟩
    cases item with
    | log s => cases hpred
    | error m s => cases hpred
    | task n c he =>
      cases he with
      | true => exact ⟨n, c, rfl⟩
      | false => cases hpred
  · rintro ⟨item, hmem, n, c, rfl⟩
    exact ⟨LogItem.task n c true, hmem, rfl⟩

/-- **C10.** `has_errors` is true iff a top-level TaskEntry is flagged,
and a root-level Error entry never changes it — so with the intended
root-level recording an item whose record has no flagged top-level task is
still reported synchronized.  The code as written diverges earlier: the
handler's `add_error(message, e, traceback_str)` call carries three
positional arguments for a two-parameter method, so the modelled
`sync_dataset` error path raises TypeError instead of recording. -/
theorem has_errors_root_error_behavior (logs : List LogItem)
    (m s : String) (e : Exc) (tb : String) :
    (has_errors (add_error_root logs m s) = has_errors logs)
    ∧ (has_errors logs = true ↔ HasFlaggedTask logs)
    ∧ ((sync_dataset_exc_outside_tasks_intended logs e).2 = true ↔
        ¬ HasFlaggedTask logs)
    ∧ sync_dataset_exc_outside_tasks logs e tb = Except.error
        "TypeError: add_error() takes 3 positional arguments but 4 were given" := by
  refine ⟨has_errors_append_error logs m s, has_errors_iff_flagged logs,
    ?_, rfl⟩
  show (!(has_errors (add_error_root logs
      "failed to synchronize dataset with error" e.str))) = true ↔ _
  rw [has_errors_append_error, Bool.not_eq_true']
  constructor
  · intro h hf
    rw [(has_errors_iff_flagged logs).mpr hf] at h
    cases h
  · intro h
    cases hh : has_errors logs
    · rfl
    · exact absurd ((has_errors_iff_flagged logs).mp hh) h

end SyncAgent
